import Mathlib

/-!
Shallow embedding of the Inventory & Transaction Engine of the Lallan-Shop
repository (src/services/storage.ts), together with proofs settling the
frozen claims about it.

Modelling conventions:
* The browser-persisted collections (products, units, bulk stock, orders,
  settings, per-user carts) form one `Store` record.  Every storage.ts
  function reads collections, computes in memory, and persists with
  `localStorage.setItem`; a thrown exception skips every remaining write.
  Functions that can throw are embedded as `Except String Store`: an
  `Except.error` result models the thrown message, in which case the caller
  observes the unchanged pre-call store (nothing was persisted before the
  throw site in the source).
* JavaScript strings are `String`/`List Char`; `parseInt` on the digit-only
  serial numbers managed by the allocator is `String.toNat?`; JavaScript
  numbers holding stock quantities are `Int` (they can go below zero),
  counts and serial-range bounds are `Nat`.
* `crypto.randomUUID` and `new Date()` are nondeterministic inputs; they are
  passed in as explicit `freshIds`/`today` parameters.
* In-place mutation of the object returned by `Array.prototype.find`
  is embedded as `updateFirst`; `Array.prototype.splice(idx, 1)` after
  `findIndex` is `eraseFirst`.
-/

namespace LallanShop

/-- Replace the first element satisfying `p` by its image under `f`
(the embedding of mutating the object found by `Array.prototype.find`). -/
def updateFirst (p : α → Bool) (f : α → α) : List α → List α
  | [] => []
  | x :: xs => if p x then f x :: xs else x :: updateFirst p f xs

/-- Remove the first element satisfying `p` (the embedding of
`splice(findIndex(p), 1)`). -/
def eraseFirst (p : α → Bool) : List α → List α
  | [] => []
  | x :: xs => if p x then xs else x :: eraseFirst p xs

instance {ε α : Type} [DecidableEq ε] [DecidableEq α] : DecidableEq (Except ε α) := fun x y =>
  match x, y with
  | .error a, .error b =>
    if h : a = b then .isTrue (by rw [h]) else .isFalse (fun hc => h (Except.error.inj hc))
  | .ok a, .ok b =>
    if h : a = b then .isTrue (by rw [h]) else .isFalse (fun hc => h (Except.ok.inj hc))
  | .error _, .ok _ => .isFalse (fun hc => Except.noConfusion hc)
  | .ok _, .error _ => .isFalse (fun hc => Except.noConfusion hc)

/-- Unit lifecycle states, from types.ts `UnitStatus`. -/
inductive UnitStatus
  | IN_FACTORY
  | IN_TRANSIT_TO_SELLER
  | AT_SELLER
  | SOLD_TO_BUYER
  | RETURN_REQUESTED
  | RETURNED_TO_SELLER
  | RETURNED_DEFECTIVE
deriving DecidableEq

/-- Order states, from types.ts `OrderStatus`. -/
inductive OrderStatus
  | AwaitingConfirmation
  | Confirmed
  | Delivered
  | ReturnRequested
  | Returned
deriving DecidableEq

/-- types.ts `ProductUnit`. -/
structure ProductUnit where
  id : String
  productId : String
  serialNumber : String
  status : UnitStatus
  uniqueAuthHash : Option String := none
  manufacturerId : String
  sellerId : Option String := none
  buyerId : Option String := none
  manufacturingDate : String := ""
  dateSentToSeller : Option String := none
  dateSold : Option String := none
  dateReturned : Option String := none
deriving DecidableEq

/-- types.ts `BulkStock`. -/
structure BulkStock where
  id : String
  productId : String
  ownerId : String
  quantity : Int
deriving DecidableEq

/-- types.ts `Product` (display metadata omitted). -/
structure Product where
  id : String
  name : String
  manufacturerId : String
  isSerialized : Bool
deriving DecidableEq

/-- types.ts `CartItem` (price omitted; `unitIds` is not read by
`processCheckout` and is omitted). -/
structure CartItem where
  id : String
  productId : String
  productName : String
  quantity : Nat
  isSerialized : Bool
  sellerId : Option String := none
deriving DecidableEq

/-- types.ts `Order`. -/
structure Order where
  id : String
  productId : String
  productName : String
  sellerId : String
  buyerId : String
  buyerName : String
  quantity : Nat
  status : OrderStatus
  assignedUnitIds : Option (List String) := none
  dateOrdered : String
  dateConfirmed : Option String := none
  dateDelivered : Option String := none
deriving DecidableEq

/-- types.ts `GlobalSettings`, restricted to the serial-number domain used
by the allocator (the system-message and content fields are never read by
the engine). -/
structure GlobalSettings where
  serialRangeStart : Nat
  serialRangeEnd : Nat
  recycledSerials : List Nat
deriving DecidableEq

/-- The whole persisted state: one field per localStorage collection read
or written by the engine. -/
structure Store where
  products : List Product := []
  units : List ProductUnit := []
  bulkStock : List BulkStock := []
  orders : List Order := []
  settings : GlobalSettings
  carts : List (String × List CartItem) := []
deriving DecidableEq

/-! ### QR security logic (storage.ts lines 21-61)

JS strings are embedded as `List Char`; `charCodeAt` is `Char.toNat`
(exact for the code-point range below 0x10000, which covers every string
the engine signs).  The 32-bit arithmetic of the hash is `Nat` arithmetic
with an explicit `% 2 ^ 32`. -/

def SYSTEM_SECRET_KEY : List Char := "LALLAN-ASKE-V1-SECRET".data

/-- One step of the hash loop: `h = Math.imul(h ^ str.charCodeAt(i), 2654435761)`,
on 32-bit patterns. -/
def hashStep (h c : Nat) : Nat := ((h ^^^ c) * 2654435761) % 2 ^ 32

/-- The hash loop over the char codes of the input. -/
def hashFold : Nat → List Nat → Nat
  | h, [] => h
  | h, c :: cs => hashFold (hashStep h c) cs

/-- The final mix `(h ^ h >>> 16) >>> 0` on the 32-bit pattern. -/
def finalizeHash (h : Nat) : Nat := h ^^^ (h >>> 16)

/-- Lowercase hex digit, as produced by JS `Number.prototype.toString(16)`. -/
def hexDigitChar (n : Nat) : Char := if n < 10 then Char.ofNat (48 + n) else Char.ofNat (87 + n)

/-- Accumulator loop for hex rendering (`fuel` bounds the digit count so the
recursion is structural; any `fuel` with `n < 16 ^ fuel` computes all digits). -/
def natToHexAux : Nat → Nat → List Char → List Char
  | 0, _, acc => acc
  | fuel + 1, n, acc =>
    if n = 0 then acc
    else natToHexAux fuel (n / 16) (hexDigitChar (n % 16) :: acc)

/-- `Number.prototype.toString(16)` for an unsigned 32-bit value. -/
def natToHex (n : Nat) : List Char := if n = 0 then ['0'] else natToHexAux (n + 1) n []

/-- The numeric value of a lowercase hex digit (proof artifact used to
re-read the strings `natToHex` produces). -/
def hexVal (c : Char) : Nat := if 97 ≤ c.toNat then c.toNat - 87 else c.toNat - 48

/-- The value of a hex string (proof artifact inverse of `natToHex`). -/
def hexValFold (l : List Char) : Nat := l.foldl (fun a c => a * 16 + hexVal c) 0

/-- storage.ts `generateSyncSignature`. -/
def generateSyncSignature (str : List Char) : List Char :=
  natToHex (finalizeHash (hashFold 0xdeadbeef (str.map Char.toNat)))

/-- storage.ts `getSignedQRData`: the payload `LS:{serial}:{signature}`. -/
def getSignedQRData (serialNumber : List Char) : List Char :=
  'L' :: 'S' :: ':' :: (serialNumber ++ ':' :: generateSyncSignature (serialNumber ++ SYSTEM_SECRET_KEY))

/-- The result object of `validateSignedQR`. -/
structure QRValidationResult where
  valid : Bool
  serialNumber : Option (List Char) := none
  error : Option (List Char) := none
deriving DecidableEq

def errExternalQR : List Char := "External QR Code Detected. Please scan a genuine Lallan Shop QR.".data

def errMalformedQR : List Char := "Malformed QR Data.".data

def errForgedQR : List Char := "Forged QR Code. Signature verification failed.".data

/-- `scannedText.startsWith('LS:')`. -/
def startsWithLS : List Char → Bool
  | a :: b :: c :: _ => decide (a = 'L') && decide (b = 'S') && decide (c = ':')
  | _ => false

/-- `String.prototype.split(':')` (single-character separator). -/
def splitColon : List Char → List (List Char)
  | [] => [[]]
  | c :: rest =>
    if c = ':' then [] :: splitColon rest
    else
      match splitColon rest with
      | [] => [[c]]
      | h :: t => (c :: h) :: t

/-- storage.ts `validateSignedQR`. -/
def validateSignedQR (scannedText : List Char) : QRValidationResult :=
  if startsWithLS scannedText = false then
    { valid := false, error := some errExternalQR }
  else
    match splitColon scannedText with
    | [_, serialNumber, scannedSignature] =>
        if scannedSignature ≠ generateSyncSignature (serialNumber ++ SYSTEM_SECRET_KEY) then
          { valid := false, error := some errForgedQR }
        else
          { valid := true, serialNumber := some serialNumber }
    | _ => { valid := false, error := some errMalformedQR }

/-! ### Serial allocator (storage.ts lines 97-148) -/

def serialExhaustedMsg : String := "Serial number range exhausted. Please contact Admin."

/-- The embedding of `parseInt` as used on the serial numbers managed by the
engine, which are plain digit strings: a non-empty all-digit string parses to
its decimal value, everything else to `none`.  (`parseInt` additionally
accepts signs, leading whitespace and trailing garbage; no such serial is
ever produced by the allocator.) -/
def parseSerial (s : String) : Option Nat :=
  if s.data ≠ [] ∧ s.data.all (fun c => decide ('0' ≤ c) && decide (c ≤ '9')) then
    some (s.data.foldl (fun n c => n * 10 + (c.toNat - 48)) 0)
  else none

/-- The set of in-use numeric serials: `parseInt(u.serialNumber)` for every
live unit, keeping only successfully parsed numbers. -/
def usedNumbers (units : List ProductUnit) : List Nat :=
  units.filterMap (fun u => parseSerial u.serialNumber)

/-- The recycled-pool drain loop: repeatedly `shift()` the front of the
pool while fewer than `need` serials are generated, skipping (and thereby
discarding) any candidate currently in use.  Returns the generated serial
strings and the remaining pool. -/
def drainPool (used : List Nat) : List Nat → Nat → List String × List Nat
  | [], _ => ([], [])
  | c :: rest, need =>
    if need = 0 then ([], c :: rest)
    else if c ∈ used then drainPool used rest need
    else
      let (g, p) := drainPool used rest (need - 1)
      (toString c :: g, p)

/-- The linear forward scan over the remaining candidate numbers
`[candidate, ..., rangeEnd]`: push every number not in use until `need`
numbers are produced; throw the range-exhaustion error as soon as a needed
candidate exceeds `rangeEnd` (the candidate list is exhausted). -/
def scanGo (used : List Nat) : List Nat → Nat → Except String (List String)
  | _, 0 => .ok []
  | [], _ + 1 => .error serialExhaustedMsg
  | c :: cs, need + 1 =>
    if c ∈ used then scanGo used cs (need + 1)
    else
      match scanGo used cs need with
      | .error e => .error e
      | .ok g => .ok (toString c :: g)

/-- storage.ts `generateNextSerialBatch`: sort the recycled pool ascending
(the JS comparator `(a, b) => a - b`), drain it first, then scan forward
from `serialRangeStart` to `serialRangeEnd`; on success the drained pool is
persisted, on a throw nothing is persisted. -/
def generateNextSerialBatch (quantity : Nat) (s : Store) :
    Except String (List String × Store) :=
  let used := usedNumbers s.units
  let sortedPool := List.insertionSort (· ≤ ·) s.settings.recycledSerials
  let (g1, poolRest) := drainPool used sortedPool quantity
  let candidates := List.range' s.settings.serialRangeStart
    (s.settings.serialRangeEnd + 1 - s.settings.serialRangeStart)
  match scanGo used candidates (quantity - g1.length) with
  | .error e => .error e
  | .ok g2 =>
      .ok (g1 ++ g2, { s with settings := { s.settings with recycledSerials := poolRest } })

/-- The store an engine caller observes after `generateNextSerialBatch`:
unchanged when the call threw. -/
def runGenerateBatch (quantity : Nat) (s : Store) : Store :=
  match generateNextSerialBatch quantity s with
  | .error _ => s
  | .ok (_, s2) => s2

/-- The list of serials a caller receives (empty when the call threw). -/
def generatedSerials (quantity : Nat) (s : Store) : List String :=
  match generateNextSerialBatch quantity s with
  | .error _ => []
  | .ok (g, _) => g

/-! ### Product and inventory management (storage.ts lines 364-465) -/

/-- storage.ts `saveProductBatch`.  The awaited SHA-256 `generateSecureHash`
is passed in as `hashFn`; `newStockId` stands for the `generateId()` call of
the bulk branch. -/
def saveProductBatch (hashFn : String → String → String) (newStockId : String)
    (product : Product) (quantity : Int) (partialUnits : List ProductUnit)
    (s : Store) : Store :=
  let products :=
    if s.products.any (fun p => p.id == product.id) then
      updateFirst (fun p => p.id == product.id) (fun _ => product) s.products
    else s.products ++ [product]
  if product.isSerialized then
    let finalUnits :=
      (partialUnits.filter (fun u => u.serialNumber != "" && u.manufacturerId != "")).map
        (fun u => { u with uniqueAuthHash := some (hashFn u.serialNumber u.manufacturerId) })
    { s with products := products, units := s.units ++ finalUnits }
  else
    let merged := updateFirst
      (fun st => st.productId == product.id && st.ownerId == product.manufacturerId)
      (fun st => { st with quantity := st.quantity + quantity }) s.bulkStock
    let created := s.bulkStock ++
      [{ id := newStockId, productId := product.id,
         ownerId := product.manufacturerId, quantity := quantity }]
    if s.bulkStock.any (fun st => st.productId == product.id && st.ownerId == product.manufacturerId) then
      { s with products := products, bulkStock := merged }
    else
      { s with products := products, bulkStock := created }

/-- storage.ts `transferBulkStock` (`newStockId` stands for the
`generateId()` of the credit-side record creation). -/
def transferBulkStock (newStockId : String) (productId fromOwnerId : String)
    (toOwnerId : Option String) (quantity : Int) (s : Store) : Store :=
  match s.bulkStock.find? (fun st => st.productId == productId && st.ownerId == fromOwnerId) with
  | none => s
  | some src =>
    if quantity ≤ src.quantity then
      let debited := updateFirst (fun st => st.productId == productId && st.ownerId == fromOwnerId)
        (fun st => { st with quantity := st.quantity - quantity }) s.bulkStock
      match toOwnerId with
      | none => { s with bulkStock := debited }
      | some toId =>
        let credited := updateFirst (fun st => st.productId == productId && st.ownerId == toId)
          (fun st => { st with quantity := st.quantity + quantity }) debited
        let created := debited ++
          [{ id := newStockId, productId := productId, ownerId := toId, quantity := quantity }]
        if debited.any (fun st => st.productId == productId && st.ownerId == toId) then
          { s with bulkStock := credited }
        else
          { s with bulkStock := created }
    else s

/-- storage.ts `deleteProductUnit`: remove the unit, then recycle its serial
number into the pool if it parses and is not already pooled. -/
def deleteProductUnit (unitId : String) (s : Store) : Store :=
  let remainingUnits := s.units.filter (fun u => u.id != unitId)
  match s.units.find? (fun u => u.id == unitId) with
  | none => { s with units := remainingUnits }
  | some unitToDelete =>
    match parseSerial unitToDelete.serialNumber with
    | none => { s with units := remainingUnits }
    | some num =>
      let recycled := { s.settings with recycledSerials := s.settings.recycledSerials ++ [num] }
      if num ∈ s.settings.recycledSerials then { s with units := remainingUnits }
      else
        { s with units := remainingUnits, settings := recycled }

/-! ### Transaction engine (storage.ts lines 560-820) -/

/-- Seller resolution of `processCheckout`: the explicit cart seller when
truthy (JS: a missing or empty string is falsy), else the manufacturer of
the catalog product; the empty string encodes an unresolved seller. -/
def resolveSellerId (products : List Product) (item : CartItem) : String :=
  let s0 := item.sellerId.getD ""
  if s0 == "" then
    match products.find? (fun p => p.id == item.productId) with
    | some p => p.manufacturerId
    | none => ""
  else s0

/-- The availability filter of checkout: units of this product owned by the
resolved seller in status `AT_SELLER` or `RETURNED_TO_SELLER`. -/
def eligibleUnit (productId sellerId : String) (u : ProductUnit) : Bool :=
  u.productId == productId && u.sellerId == some sellerId &&
    (decide (u.status = UnitStatus.AT_SELLER) || decide (u.status = UnitStatus.RETURNED_TO_SELLER))

/-- The validation phase of `processCheckout` for one line item: `some msg`
is the thrown error, `none` means the item passed. -/
def validateItem (products : List Product) (units : List ProductUnit)
    (stock : List BulkStock) (item : CartItem) : Option String :=
  let sellerId := resolveSellerId products item
  if sellerId == "" then
    some ("Data integrity error: Cannot identify seller for " ++ item.productName ++
      ". Please clear cart and try again.")
  else if item.isSerialized then
    let availableUnits := units.filter (eligibleUnit item.productId sellerId)
    if availableUnits.length < item.quantity then
      some ("Insufficient stock for " ++ item.productName ++ ". Requested: " ++
        toString item.quantity ++ ", Available: " ++ toString availableUnits.length ++
        ". Order cancelled.")
    else none
  else
    match stock.find? (fun st => st.productId == item.productId && st.ownerId == sellerId) with
    | none => some ("Insufficient bulk stock for " ++ item.productName ++ ". Order cancelled.")
    | some st =>
      if st.quantity < (item.quantity : Int) then
        some ("Insufficient bulk stock for " ++ item.productName ++ ". Order cancelled.")
      else none

/-- The unit mutation of checkout reservation. -/
def sellUnit (buyerId today : String) (u : ProductUnit) : ProductUnit :=
  { u with status := .SOLD_TO_BUYER, buyerId := some buyerId, dateSold := some today }

/-- The execution phase of `processCheckout`: one pass over the cart,
threading the in-memory `allUnits`/`allStock` snapshots and accumulating the
new orders; `freshIds` supplies one `generateId()` result per created order. -/
def checkoutExec (products : List Product) (buyerId buyerName today : String) :
    List CartItem → List String → List ProductUnit → List BulkStock → List Order →
    List ProductUnit × List BulkStock × List Order
  | [], _, units, stock, newOrders => (units, stock, newOrders)
  | item :: rest, freshIds, units, stock, newOrders =>
    let sellerId := resolveSellerId products item
    if sellerId == "" then
      checkoutExec products buyerId buyerName today rest freshIds units stock newOrders
    else
      let baseOrder : Order :=
        { id := freshIds.headD "", productId := item.productId, productName := item.productName,
          sellerId := sellerId, buyerId := buyerId, buyerName := buyerName,
          quantity := item.quantity, status := .AwaitingConfirmation, dateOrdered := today }
      if item.isSerialized then
        let availableUnits := units.filter (eligibleUnit item.productId sellerId)
        let unitIds := (availableUnits.take item.quantity).map (fun u => u.id)
        let units2 := units.map (fun u => if unitIds.contains u.id then sellUnit buyerId today u else u)
        checkoutExec products buyerId buyerName today rest freshIds.tail units2 stock
          (newOrders ++ [{ baseOrder with assignedUnitIds := some unitIds }])
      else
        let stock2 := stock.map (fun st =>
          if st.productId == item.productId && st.ownerId == sellerId then
            { st with quantity := st.quantity - (item.quantity : Int) }
          else st)
        checkoutExec products buyerId buyerName today rest freshIds.tail units stock2
          (newOrders ++ [baseOrder])

/-- storage.ts `processCheckout`: validate every line item against the
read snapshots, throwing on the first shortfall; only then execute and
commit every collection and clear the buyer cart. -/
def processCheckout (buyerId buyerName : String) (cartItems : List CartItem)
    (freshIds : List String) (today : String) (s : Store) : Except String Store :=
  match cartItems.findSome? (validateItem s.products s.units s.bulkStock) with
  | some msg => .error msg
  | none =>
    let (units2, stock2, newOrders) :=
      checkoutExec s.products buyerId buyerName today cartItems freshIds s.units s.bulkStock []
    .ok { s with units := units2, bulkStock := stock2, orders := s.orders ++ newOrders,
                 carts := s.carts.filter (fun kv => kv.fst != buyerId) }

/-- The store an engine caller observes after `processCheckout`: unchanged
when the call threw during validation. -/
def runCheckout (buyerId buyerName : String) (cartItems : List CartItem)
    (freshIds : List String) (today : String) (s : Store) : Store :=
  match processCheckout buyerId buyerName cartItems freshIds today s with
  | .error _ => s
  | .ok s2 => s2

/-- storage.ts `fulfillOrder`: unconditionally confirm the order; when unit
ids are supplied and none were pre-assigned, assign them and mark each
existing referenced unit sold. -/
def fulfillOrder (orderId : String) (unitIds : Option (List String)) (today : String)
    (s : Store) : Store :=
  match s.orders.find? (fun o => o.id == orderId) with
  | none => s
  | some o =>
    let confirmed := fun (x : Order) =>
      { x with status := OrderStatus.Confirmed, dateConfirmed := some today }
    match unitIds with
    | some ids =>
      let orders2 := updateFirst (fun x => x.id == orderId)
        (fun x => { confirmed x with assignedUnitIds := some ids }) s.orders
      let sold := fun (u : ProductUnit) =>
        { u with status := UnitStatus.SOLD_TO_BUYER, buyerId := some o.buyerId, dateSold := some today }
      let units2 := ids.foldl (fun acc uid =>
        updateFirst (fun u => u.id == uid) sold acc) s.units
      if (o.assignedUnitIds.getD []).isEmpty then
        { s with orders := orders2, units := units2 }
      else { s with orders := updateFirst (fun x => x.id == orderId) confirmed s.orders }
    | none => { s with orders := updateFirst (fun x => x.id == orderId) confirmed s.orders }

/-- storage.ts `cancelOrder`: return assigned units to the seller with buyer
and sale date cleared, or credit the seller bulk counter (creating it with
`newStockId` if absent); then delete the order. -/
def cancelOrder (orderId newStockId : String) (s : Store) : Store :=
  match s.orders.find? (fun o => o.id == orderId) with
  | none => s
  | some o =>
    let units2 := (o.assignedUnitIds.getD []).foldl (fun acc uid =>
      updateFirst (fun u => u.id == uid)
        (fun u => { u with status := .AT_SELLER, buyerId := none, dateSold := none }) acc) s.units
    let credited := updateFirst
      (fun st => st.productId == o.productId && st.ownerId == o.sellerId)
      (fun st => { st with quantity := st.quantity + (o.quantity : Int) }) s.bulkStock
    let created := s.bulkStock ++
      [{ id := newStockId, productId := o.productId, ownerId := o.sellerId,
         quantity := (o.quantity : Int) }]
    let s2 :=
      if (o.assignedUnitIds.getD []).length > 0 then
        { s with units := units2 }
      else
        if s.bulkStock.any (fun st => st.productId == o.productId && st.ownerId == o.sellerId) then
          { s with bulkStock := credited }
        else
          { s with bulkStock := created }
    { s2 with orders := eraseFirst (fun x => x.id == orderId) s2.orders }

/-- storage.ts `requestOrderReturn`: unconditionally move the order to
`Return Requested` and every assigned unit to `RETURN_REQUESTED`. -/
def requestOrderReturn (orderId : String) (s : Store) : Store :=
  match s.orders.find? (fun o => o.id == orderId) with
  | none => s
  | some o =>
    let orders2 := updateFirst (fun x => x.id == orderId)
      (fun x => { x with status := OrderStatus.ReturnRequested }) s.orders
    let units2 :=
      match o.assignedUnitIds with
      | none => s.units
      | some ids => ids.foldl (fun acc uid =>
          updateFirst (fun u => u.id == uid)
            (fun u => { u with status := .RETURN_REQUESTED }) acc) s.units
    { s with orders := orders2, units := units2 }

/-- storage.ts `processBuyerReturn`: accept moves the order to `Returned`
and units to `RETURNED_TO_SELLER` (or credits the seller bulk counter);
decline moves the order back to `Delivered` and units to `SOLD_TO_BUYER`.
No state precondition is checked. -/
def processBuyerReturn (orderId : String) (accept : Bool) (s : Store) : Store :=
  match s.orders.find? (fun o => o.id == orderId) with
  | none => s
  | some o =>
    if accept then
      let orders2 := updateFirst (fun x => x.id == orderId)
        (fun x => { x with status := OrderStatus.Returned }) s.orders
      let credited := updateFirst
        (fun st => st.productId == o.productId && st.ownerId == o.sellerId)
        (fun st => { st with quantity := st.quantity + (o.quantity : Int) }) s.bulkStock
      match o.assignedUnitIds with
      | some ids =>
        let units2 := ids.foldl (fun acc uid =>
          updateFirst (fun u => u.id == uid)
            (fun u => { u with status := .RETURNED_TO_SELLER }) acc) s.units
        { s with orders := orders2, units := units2 }
      | none =>
        if s.bulkStock.any (fun st => st.productId == o.productId && st.ownerId == o.sellerId) then
          { s with orders := orders2, bulkStock := credited }
        else { s with orders := orders2 }
    else
      let orders2 := updateFirst (fun x => x.id == orderId)
        (fun x => { x with status := OrderStatus.Delivered }) s.orders
      match o.assignedUnitIds with
      | some ids =>
        let units2 := ids.foldl (fun acc uid =>
          updateFirst (fun u => u.id == uid)
            (fun u => { u with status := .SOLD_TO_BUYER }) acc) s.units
        { s with orders := orders2, units := units2 }
      | none => { s with orders := orders2 }

/-! ### Concrete stores used by the claim scenarios -/

/-- A stand-in for the awaited SHA-256 `generateSecureHash` (its value is
irrelevant to every claim below). -/
def hashConst : String → String → String := fun _ _ => "h"

def sampleSettings : GlobalSettings :=
  { serialRangeStart := 100000, serialRangeEnd := 100999, recycledSerials := [] }

/-- Bulk product P made by manufacturer X. -/
def c2Product : Product := { id := "P", name := "Gadget", manufacturerId := "X", isSerialized := false }

/-- Seller X holds 5 units of bulk stock of P. -/
def c2Store : Store :=
  { products := [c2Product],
    bulkStock := [{ id := "b1", productId := "P", ownerId := "X", quantity := 5 }],
    settings := sampleSettings }

/-- Cart line naming seller X explicitly. -/
def c2ItemA : CartItem :=
  { id := "c1", productId := "P", productName := "Gadget", quantity := 3,
    isSerialized := false, sellerId := some "X" }

/-- Cart line with no seller; checkout resolves it to the manufacturer X. -/
def c2ItemB : CartItem :=
  { id := "c2", productId := "P", productName := "Gadget", quantity := 3,
    isSerialized := false, sellerId := none }

def serProduct : Product := { id := "P", name := "Watch", manufacturerId := "M", isSerialized := true }

def c3Store0 : Store := { products := [serProduct], settings := sampleSettings }

def c3Unit : ProductUnit :=
  { id := "u1", productId := "P", serialNumber := "100000", status := .IN_FACTORY, manufacturerId := "M" }

/-- Create a unit with the first allocated serial, then delete it (its
serial 100000 enters the reclaimed pool). -/
def c3Store2 : Store :=
  deleteProductUnit "u1"
    (saveProductBatch hashConst "sidA" serProduct 0 [c3Unit] (runGenerateBatch 1 c3Store0))

def c3UnitA : ProductUnit :=
  { id := "uA", productId := "P", serialNumber := "100000", status := .IN_FACTORY, manufacturerId := "M" }

def c3UnitB : ProductUnit :=
  { id := "uB", productId := "P", serialNumber := "100000", status := .IN_FACTORY, manufacturerId := "M" }

/-- Create two units carrying the two serials returned by the duplicate batch. -/
def c3Store4 : Store :=
  saveProductBatch hashConst "sidB" serProduct 0 [c3UnitA, c3UnitB] (runGenerateBatch 2 c3Store2)

/-- A unit that was previously sold and then returned: it sits with seller X
in status RETURNED_TO_SELLER and still carries the old buyer reference. -/
def c4Unit : ProductUnit :=
  { id := "u1", productId := "P", serialNumber := "100001", status := .RETURNED_TO_SELLER,
    manufacturerId := "M", sellerId := some "X", buyerId := some "oldB", dateSold := some "2024-01-01" }

def c4Store : Store := { products := [serProduct], units := [c4Unit], settings := sampleSettings }

def c4Item : CartItem :=
  { id := "c1", productId := "P", productName := "Watch", quantity := 1,
    isSerialized := true, sellerId := some "X" }

/-- Checkout reserving the returned unit, then cancellation of the new order. -/
def c4Cancelled : Store :=
  cancelOrder "o1" "nsid" (runCheckout "B" "Buyer" [c4Item] ["o1"] "2025-01-01" c4Store)

/-- A clean AT_SELLER unit with no buyer reference, for the amended inverse. -/
def c4CleanUnit : ProductUnit :=
  { id := "u2", productId := "P", serialNumber := "100002", status := .AT_SELLER,
    manufacturerId := "M", sellerId := some "X" }

def c4CleanStore : Store := { products := [serProduct], units := [c4CleanUnit], settings := sampleSettings }

def c4BulkStore : Store :=
  { products := [c2Product],
    bulkStock := [{ id := "b1", productId := "P", ownerId := "X", quantity := 5 }],
    settings := sampleSettings }

def c4BulkItem : CartItem :=
  { id := "c2", productId := "P", productName := "Gadget", quantity := 2,
    isSerialized := false, sellerId := some "X" }

/-- An order awaiting confirmation whose assigned unit is still AT_SELLER:
not a legal source state for a return request. -/
def c5Order : Order :=
  { id := "o5", productId := "P", productName := "Watch", sellerId := "X", buyerId := "B",
    buyerName := "Buyer", quantity := 1, status := .AwaitingConfirmation,
    assignedUnitIds := some ["u2"], dateOrdered := "2025-01-01" }

def c5Store : Store :=
  { products := [serProduct], units := [c4CleanUnit], orders := [c5Order], settings := sampleSettings }

def c6Settings : GlobalSettings :=
  { serialRangeStart := 100000, serialRangeEnd := 100002, recycledSerials := [] }

def c6Store0 : Store := { settings := c6Settings }

def mkRangeUnit (i sn : String) : ProductUnit :=
  { id := i, productId := "P", serialNumber := sn, status := .IN_FACTORY, manufacturerId := "M" }

/-- All three serials of the range [100000,100002] are in use by live units. -/
def c6Store1 : Store :=
  { settings := c6Settings,
    units := [mkRangeUnit "a" "100000", mkRangeUnit "b" "100001", mkRangeUnit "c" "100002"] }

def c7Unit : ProductUnit :=
  { id := "u7", productId := "P", serialNumber := "100005", status := .IN_FACTORY, manufacturerId := "M" }

def c7Store : Store := { products := [serProduct], units := [c7Unit], settings := sampleSettings }

def c8Serial : List Char := "100000".data

/-- A quantity-1 order with no pre-reserved units. -/
def c9Order : Order :=
  { id := "o9", productId := "P", productName := "Watch", sellerId := "X", buyerId := "B",
    buyerName := "Buyer", quantity := 1, status := .AwaitingConfirmation, dateOrdered := "2025-01-01" }

def c9UnitA : ProductUnit :=
  { id := "a", productId := "P", serialNumber := "100003", status := .IN_FACTORY, manufacturerId := "M" }

def c9UnitB : ProductUnit :=
  { id := "b", productId := "P", serialNumber := "100004", status := .RETURNED_DEFECTIVE, manufacturerId := "M" }

def c9Store : Store :=
  { products := [serProduct], units := [c9UnitA, c9UnitB], orders := [c9Order], settings := sampleSettings }

def c10Settings : GlobalSettings :=
  { serialRangeStart := 100000, serialRangeEnd := 100010, recycledSerials := [100000] }

/-- Serial 100000 is both in the reclaimed pool and in use by live unit uA. -/
def c10Unit : ProductUnit :=
  { id := "uA", productId := "P", serialNumber := "100000", status := .IN_FACTORY, manufacturerId := "M" }

def c10Store0 : Store := { products := [serProduct], units := [c10Unit], settings := c10Settings }

/-- A cart line wanting more bulk stock of P than seller X holds. -/
def c1FailItem : CartItem :=
  { id := "c9", productId := "P", productName := "Gadget", quantity := 9,
    isSerialized := false, sellerId := some "X" }

def c2After : Store :=
  runCheckout "B" "Buyer" [c2ItemA, c2ItemB] ["o1", "o2"] "2025-01-01" c2Store

/-- The unit ids a single-line serialized checkout reserves: the FIFO
prefix of the eligible units. -/
def reservedIds (s : Store) (item : CartItem) : List String :=
  ((s.units.filter (eligibleUnit item.productId (resolveSellerId s.products item))).take
    item.quantity).map (fun u => u.id)

/-- The order a single-line checkout creates. -/
def mkCheckoutOrder (s : Store) (item : CartItem)
    (oid buyerId buyerName today : String) (assigned : Option (List String)) : Order :=
  { id := oid, productId := item.productId, productName := item.productName,
    sellerId := resolveSellerId s.products item, buyerId := buyerId, buyerName := buyerName,
    quantity := item.quantity, status := .AwaitingConfirmation, assignedUnitIds := assigned,
    dateOrdered := today }

/-! ## Helper lemmas -/

theorem map_id_of_eq {g : α → α} {l : List α} (h : ∀ x ∈ l, g x = x) : l.map g = l := by
  induction l with
  | nil => rfl
  | cons x xs ih =>
    simp only [List.map_cons, h x (List.mem_cons_self x xs)]
    rw [ih (fun y hy => h y (List.mem_cons_of_mem _ hy))]

theorem updateFirst_of_forall_not {p : α → Bool} {f : α → α} {l : List α}
    (h : ∀ x ∈ l, p x = false) : updateFirst p f l = l := by
  induction l with
  | nil => rfl
  | cons x xs ih =>
    simp only [updateFirst, h x (List.mem_cons_self x xs), Bool.false_eq_true, if_false]
    rw [ih (fun y hy => h y (List.mem_cons_of_mem _ hy))]

theorem eraseFirst_append_singleton {p : α → Bool} {l : List α} {y : α}
    (h : ∀ x ∈ l, p x = false) (hy : p y = true) : eraseFirst p (l ++ [y]) = l := by
  induction l with
  | nil => simp [eraseFirst, hy]
  | cons x xs ih =>
    rw [List.cons_append, eraseFirst]
    simp only [h x (List.mem_cons_self x xs), Bool.false_eq_true, if_false]
    rw [ih (fun z hz => h z (List.mem_cons_of_mem _ hz))]

theorem find?_append_singleton {p : α → Bool} {l : List α} {y : α}
    (h : ∀ x ∈ l, p x = false) (hy : p y = true) : (l ++ [y]).find? p = some y := by
  rw [List.find?_append, List.find?_eq_none.mpr (by simpa using h)]
  simp [List.find?, hy]

theorem filter_key_length_le_one {key : α → String} {l : List α}
    (h : (l.map key).Nodup) (uid : String) :
    (l.filter (fun x => key x == uid)).length ≤ 1 := by
  induction l with
  | nil => simp
  | cons x xs ih =>
    simp only [List.map_cons, List.nodup_cons] at h
    by_cases hx : (key x == uid) = true
    · have hxs : xs.filter (fun y => key y == uid) = [] := by
        rw [List.filter_eq_nil_iff]
        intro y hy hc
        simp only [beq_iff_eq] at hc
        exact h.1 (by rw [beq_iff_eq] at hx; rw [hx, ← hc]; exact List.mem_map_of_mem key hy)
      simp [List.filter_cons, hx, hxs]
    · simp only [List.filter_cons, hx, Bool.false_eq_true, if_false]
      exact ih h.2

theorem updateFirst_eq_map {p : α → Bool} {f : α → α} {l : List α}
    (h : (l.filter p).length ≤ 1) :
    updateFirst p f l = l.map (fun x => if p x then f x else x) := by
  induction l with
  | nil => rfl
  | cons x xs ih =>
    by_cases hx : p x = true
    · have hnil : xs.filter p = [] := by
        rw [List.filter_cons_of_pos hx] at h
        simp only [List.length_cons] at h
        exact List.eq_nil_of_length_eq_zero (by omega)
      have hxs : ∀ y ∈ xs, p y = false := by
        intro y hy
        by_contra hc
        simp only [Bool.not_eq_false] at hc
        have : y ∈ xs.filter p := List.mem_filter.mpr ⟨hy, hc⟩
        simp [hnil] at this
      simp only [updateFirst, hx, if_true, List.map_cons]
      rw [map_id_of_eq (fun y hy => by simp [hxs y hy])]
    · simp only [Bool.not_eq_true] at hx
      simp only [updateFirst, hx, Bool.false_eq_true, if_false, List.map_cons, hx]
      rw [ih (by rw [List.filter_cons_of_neg (by simp [hx])] at h; exact h)]

theorem foldl_updateFirst_eq_map (key : α → String) (f : α → α)
    (hkey : ∀ x, key (f x) = key x) :
    ∀ (ids : List String) (l : List α), (l.map key).Nodup → ids.Nodup →
      ids.foldl (fun acc uid => updateFirst (fun x => key x == uid) f acc) l
        = l.map (fun x => if key x ∈ ids then f x else x) := by
  intro ids
  induction ids with
  | nil =>
    intro l _ _
    simp only [List.foldl_nil, List.not_mem_nil, if_false]
    exact (map_id_of_eq (fun y _ => rfl)).symm
  | cons uid rest ih =>
    intro l hl hids
    simp only [List.foldl_cons]
    rw [updateFirst_eq_map (filter_key_length_le_one hl uid)]
    have hkey2 : ∀ x, key (if (key x == uid) = true then f x else x) = key x := by
      intro x
      by_cases hx : (key x == uid) = true <;> simp [hx, hkey]
    have hl2 : ((l.map (fun x => if (key x == uid) = true then f x else x)).map key).Nodup := by
      rw [List.map_map]
      have heq : (key ∘ fun x => if (key x == uid) = true then f x else x) = key := by
        funext x; exact hkey2 x
      rw [heq]; exact hl
    rw [ih _ hl2 (List.nodup_cons.mp hids).2, List.map_map]
    apply List.map_congr_left
    intro x _
    simp only [Function.comp_apply]
    by_cases hx : (key x == uid) = true
    · have hxe : key x = uid := by rwa [beq_iff_eq] at hx
      rw [if_pos hx]
      have hnr : key (f x) ∉ rest := by
        rw [hkey, hxe]
        exact (List.nodup_cons.mp hids).1
      rw [if_neg hnr, if_pos (by rw [hxe]; exact List.mem_cons_self _ _)]
    · rw [if_neg hx]
      have hxne : key x ≠ uid := by simpa using hx
      by_cases hr : key x ∈ rest
      · rw [if_pos hr, if_pos (List.mem_cons_of_mem _ hr)]
      · rw [if_neg hr, if_neg (by simp [hxne, hr])]

theorem find?_updateFirst (p : α → Bool) (f : α → α) (hp : ∀ x, p (f x) = p x) :
    ∀ l : List α, (updateFirst p f l).find? p = (l.find? p).map f := by
  intro l
  induction l with
  | nil => rfl
  | cons x xs ih =>
    by_cases hx : p x = true
    · simp [updateFirst, hx, List.find?_cons, hp x]
    · simp only [Bool.not_eq_true] at hx
      simp only [updateFirst, hx, Bool.false_eq_true, if_false]
      simp [List.find?_cons, hx, ih]

theorem findSome?_exists_of_ne_none {f : α → Option β} {l : List α}
    (h : ∃ x ∈ l, (f x).isSome) :
    ∃ y ∈ l, ∃ b, f y = some b ∧ l.findSome? f = some b := by
  induction l with
  | nil => simp at h
  | cons x xs ih =>
    cases hfx : f x with
    | some b => exact ⟨x, List.mem_cons_self x xs, b, hfx, by simp [List.findSome?_cons, hfx]⟩
    | none =>
      obtain ⟨y, hy, hfy⟩ := h
      rcases List.mem_cons.mp hy with rfl | hy2
      · rw [hfx] at hfy; simp at hfy
      · obtain ⟨z, hz, b, hfz, hfind⟩ := ih ⟨y, hy2, hfy⟩
        exact ⟨z, List.mem_cons_of_mem _ hz, b, hfz, by simp [List.findSome?_cons, hfx, hfind]⟩

theorem drainPool_zero (used : List Nat) : ∀ pool : List Nat, drainPool used pool 0 = ([], pool) := by
  intro pool
  cases pool <;> simp [drainPool]

theorem drainPool_length_le (used : List Nat) :
    ∀ (pool : List Nat) (need : Nat), (drainPool used pool need).1.length ≤ need := by
  intro pool
  induction pool with
  | nil => intro need; simp [drainPool]
  | cons c rest ih =>
    intro need
    by_cases hn : need = 0
    · simp [drainPool, hn]
    · by_cases hc : c ∈ used
      · simpa [drainPool, hn, hc] using ih need
      · have := ih (need - 1)
        simp only [drainPool, hn, if_false, hc, if_false]
        simp only [List.length_cons]
        omega

theorem drainPool_consumed (used : List Nat) :
    ∀ (pool : List Nat) (need : Nat),
      ∃ consumed, pool = consumed ++ (drainPool used pool need).2 ∧
        ∀ x ∈ consumed, toString x ∈ (drainPool used pool need).1 ∨ x ∈ used := by
  intro pool
  induction pool with
  | nil => intro need; exact ⟨[], by simp [drainPool]⟩
  | cons c rest ih =>
    intro need
    by_cases hn : need = 0
    · exact ⟨[], by simp [drainPool, hn]⟩
    · by_cases hc : c ∈ used
      · obtain ⟨consumed, hsplit, hmem⟩ := ih need
        refine ⟨c :: consumed, ?_, ?_⟩
        · simp only [drainPool, hn, if_false, hc, if_true, List.cons_append]
          rw [← hsplit]
        · intro x hx
          rcases List.mem_cons.mp hx with rfl | hx2
          · right; exact hc
          · simpa [drainPool, hn, hc] using hmem x hx2
      · obtain ⟨consumed, hsplit, hmem⟩ := ih (need - 1)
        refine ⟨c :: consumed, ?_, ?_⟩
        · simp only [drainPool, hn, if_false, hc, Bool.false_eq_true, List.cons_append]
          simpa using hsplit
        · intro x hx
          rcases List.mem_cons.mp hx with rfl | hx2
          · left
            simp [drainPool, hn, hc]
          · rcases hmem x hx2 with hg | hu
            · left
              simp only [drainPool, hn, if_false, hc, Bool.false_eq_true]
              exact List.mem_cons_of_mem _ hg
            · right; exact hu

theorem scanGo_error_eq (used : List Nat) :
    ∀ (cands : List Nat) (n : Nat) (e : String),
      scanGo used cands n = .error e → e = serialExhaustedMsg := by
  intro cands
  induction cands with
  | nil =>
    intro n e h
    cases n with
    | zero => simp [scanGo] at h
    | succ m =>
      rw [scanGo] at h
      exact (Except.error.inj h).symm
  | cons c cs ih =>
    intro n e h
    cases n with
    | zero => simp [scanGo] at h
    | succ m =>
      rw [scanGo] at h
      by_cases hm : c ∈ used
      · simp only [hm, if_true] at h
        exact ih (m + 1) e h
      · simp only [hm, if_false] at h
        cases hrec : scanGo used cs m with
        | error e2 =>
          rw [hrec] at h
          cases h
          exact ih m e hrec
        | ok g => rw [hrec] at h; cases h

theorem scanGo_ok_length (used : List Nat) :
    ∀ (cands : List Nat) (n : Nat) (g : List String),
      scanGo used cands n = .ok g → g.length = n := by
  intro cands
  induction cands with
  | nil =>
    intro n g h
    cases n with
    | zero => rw [scanGo] at h; cases h; rfl
    | succ m => rw [scanGo] at h; cases h
  | cons c cs ih =>
    intro n g h
    cases n with
    | zero => rw [scanGo] at h; cases h; rfl
    | succ m =>
      rw [scanGo] at h
      by_cases hm : c ∈ used
      · simp only [hm, if_true] at h
        exact ih (m + 1) g h
      · simp only [hm, if_false] at h
        cases hrec : scanGo used cs m with
        | error e2 => rw [hrec] at h; cases h
        | ok g2 =>
          rw [hrec] at h
          cases h
          have := ih m g2 hrec
          simp only [List.length_cons]
          omega

theorem generateNextSerialBatch_error_eq (s : Store) (q : Nat) (e : String)
    (h : generateNextSerialBatch q s = .error e) : e = serialExhaustedMsg := by
  simp only [generateNextSerialBatch] at h
  split at h
  next x e2 hscan =>
    have he := Except.error.inj h
    subst he
    exact scanGo_error_eq _ _ _ _ hscan
  next x g2 hscan => simp at h

theorem generateNextSerialBatch_ok_length (s : Store) (q : Nat) (g : List String) (s2 : Store)
    (h : generateNextSerialBatch q s = .ok (g, s2)) : g.length = q := by
  simp only [generateNextSerialBatch] at h
  split at h
  next x e2 hscan => simp at h
  next x g2 hscan =>
    have hpair := Except.ok.inj h
    have hg : (drainPool (usedNumbers s.units)
        (List.insertionSort (· ≤ ·) s.settings.recycledSerials) q).1 ++ g2 = g :=
      congrArg Prod.fst hpair
    have h1 := drainPool_length_le (usedNumbers s.units)
      (List.insertionSort (· ≤ ·) s.settings.recycledSerials) q
    have h2 := scanGo_ok_length _ _ _ _ hscan
    rw [← hg]
    simp only [List.length_append]
    omega

theorem insertionSort_head_of_min {pool : List Nat} {n : Nat} (hmem : n ∈ pool)
    (hmin : ∀ x ∈ pool, n ≤ x) :
    ∃ rest, List.insertionSort (· ≤ ·) pool = n :: rest := by
  have hperm := List.perm_insertionSort (· ≤ ·) pool
  have hsorted := List.sorted_insertionSort (· ≤ ·) pool
  have hmem2 : n ∈ List.insertionSort (· ≤ ·) pool := hperm.mem_iff.mpr hmem
  cases hsort : List.insertionSort (· ≤ ·) pool with
  | nil => rw [hsort] at hmem2; simp at hmem2
  | cons h t =>
    have hh : h ∈ pool := hperm.mem_iff.mp (by rw [hsort]; exact List.mem_cons_self h t)
    have h1 : n ≤ h := hmin h hh
    rw [hsort] at hmem2 hsorted
    rcases List.mem_cons.mp hmem2 with rfl | hm
    · exact ⟨t, rfl⟩
    · have h2 := (List.pairwise_cons.mp hsorted).1 n hm
      have : n = h := Nat.le_antisymm h1 h2
      exact ⟨t, by rw [this]⟩

/-! ## Claim theorems -/

/-- C1: checkout is all-or-nothing.  If any line item of the cart fails the
validation phase of `processCheckout` (unresolvable seller, insufficient
eligible serialized units, or insufficient bulk stock), then the whole call
throws the validation message of the first failing line item (a message
built from that item), and the store a caller observes afterwards — every
unit record, bulk-stock record, order record, and the buyer cart — is
exactly the pre-call store. -/
theorem c1_checkout_all_or_nothing
    (buyerId buyerName : String) (cartItems : List CartItem) (freshIds : List String)
    (today : String) (s : Store)
    (h : ∃ it ∈ cartItems, (validateItem s.products s.units s.bulkStock it).isSome) :
    ∃ it ∈ cartItems, ∃ msg,
      validateItem s.products s.units s.bulkStock it = some msg ∧
      processCheckout buyerId buyerName cartItems freshIds today s = Except.error msg ∧
      runCheckout buyerId buyerName cartItems freshIds today s = s := by
  obtain ⟨it, hit, msg, hmsg, hfind⟩ := findSome?_exists_of_ne_none h
  refine ⟨it, hit, msg, hmsg, ?_, ?_⟩
  · rw [processCheckout, hfind]
  · rw [runCheckout, processCheckout, hfind]

/-- Witness for C1 at a concrete input: one cart line requesting 9 of a
bulk product whose seller holds 5 aborts the checkout and leaves the store
untouched. -/
theorem c1_checkout_all_or_nothing_witness :
    ∃ it ∈ [c1FailItem], ∃ msg,
      validateItem c2Store.products c2Store.units c2Store.bulkStock it = some msg ∧
      processCheckout "B" "Buyer" [c1FailItem] [] "2025-01-01" c2Store = Except.error msg ∧
      runCheckout "B" "Buyer" [c1FailItem] [] "2025-01-01" c2Store = c2Store :=
  c1_checkout_all_or_nothing "B" "Buyer" [c1FailItem] [] "2025-01-01" c2Store
    ⟨c1FailItem, by simp, by decide⟩

/-- C2 fails on the code: two cart lines that both resolve to the bulk stock
counter of product P at seller X (one naming X, one resolving to it through
the manufacturer fallback) each validate against the original quantity 5,
and execution then debits the counter twice, leaving it at -1: the code can
drive a BulkStock quantity (and the sum over all owners) negative. -/
theorem c2_aliased_checkout_negative_stock :
    processCheckout "B" "Buyer" [c2ItemA, c2ItemB] ["o1", "o2"] "2025-01-01" c2Store =
      Except.ok c2After ∧
    c2After.bulkStock.map (fun b : BulkStock => b.quantity) = [-1] ∧
    ((-1 : Int) < 0) := by decide

/-- C3 fails on the code: starting from an empty store, allocate one serial,
create the unit, delete it (serial 100000 enters the reclaimed pool), then
allocate a batch of 2.  The drain of the pool yields 100000 and the linear
scan — which only skips serials of live units, not serials already taken
from the pool in the same call — yields 100000 again: the batch contains a
duplicate, and creating the two units makes two live units share a serial. -/
theorem c3_duplicate_serials_in_batch :
    generatedSerials 2 c3Store2 = ["100000", "100000"] ∧
    ¬ (generatedSerials 2 c3Store2).Nodup ∧
    c3Store4.units.map (fun u : ProductUnit => u.serialNumber) = ["100000", "100000"] ∧
    ¬ (c3Store4.units.map (fun u : ProductUnit => u.serialNumber)).Nodup := by decide

/-- C5 fails as stated: requesting a return on an order in status
`Awaiting Confirmation` whose assigned unit is still `AT_SELLER` (neither a
legal source state) is not rejected — `requestOrderReturn` silently moves
the order to `Return Requested` and the unit to `RETURN_REQUESTED`. -/
theorem c5_counterexample :
    requestOrderReturn "o5" c5Store ≠ c5Store ∧
    (requestOrderReturn "o5" c5Store).orders.map (fun o : Order => o.status) =
      [OrderStatus.ReturnRequested] ∧
    (requestOrderReturn "o5" c5Store).units.map (fun u : ProductUnit => u.status) =
      [UnitStatus.RETURN_REQUESTED] ∧
    c5Order.status = OrderStatus.AwaitingConfirmation ∧
    c4CleanUnit.status = UnitStatus.AT_SELLER := by decide

/-- C6: whenever the allocator cannot produce the requested count within
the serial range it throws exactly the range-exhaustion error (and, the
call being a throw before any save, allocates nothing and persists
nothing); otherwise it returns exactly `q` serials.  Concretely, with range
[100000,100002] and an empty pool, allocating 3 yields 100000-100002 and
leaves the store unchanged, and a subsequent allocation of 1 with those
serials in use fails with the range-exhaustion error. -/
theorem c6_range_exhaustion :
    (∀ (s : Store) (q : Nat) (e : String),
        generateNextSerialBatch q s = .error e → e = serialExhaustedMsg) ∧
    (∀ (s : Store) (q : Nat) (g : List String) (s2 : Store),
        generateNextSerialBatch q s = .ok (g, s2) → g.length = q) ∧
    generateNextSerialBatch 3 c6Store0 = .ok (["100000", "100001", "100002"], c6Store0) ∧
    generateNextSerialBatch 1 c6Store1 = .error serialExhaustedMsg := by
  refine ⟨generateNextSerialBatch_error_eq, generateNextSerialBatch_ok_length, ?_, ?_⟩ <;> decide

/-- Witness for C6: the two universally quantified parts applied at the
concrete exhaustion and success scenarios. -/
theorem c6_range_exhaustion_witness :
    serialExhaustedMsg = serialExhaustedMsg ∧
    (["100000", "100001", "100002"] : List String).length = 3 :=
  ⟨c6_range_exhaustion.1 c6Store1 1 serialExhaustedMsg (by decide),
   c6_range_exhaustion.2.1 c6Store0 3 ["100000", "100001", "100002"] c6Store0 (by decide)⟩

/-- C9 fails as stated: `fulfillOrder` performs no validation at all.  On a
quantity-1 order with no pre-reserved units, supplying two unit ids whose
units are `IN_FACTORY` and `RETURNED_DEFECTIVE` (not `AT_SELLER`) is
accepted: the order is confirmed with both ids assigned and both units are
marked `SOLD_TO_BUYER`. -/
theorem c9_counterexample :
    (fulfillOrder "o9" (some ["a", "b"]) "2025-02-02" c9Store).orders.map
        (fun o : Order => (o.status, o.assignedUnitIds)) =
      [(OrderStatus.Confirmed, some ["a", "b"])] ∧
    (fulfillOrder "o9" (some ["a", "b"]) "2025-02-02" c9Store).units.map
        (fun u : ProductUnit => (u.status, u.buyerId)) =
      [(UnitStatus.SOLD_TO_BUYER, some "B"), (UnitStatus.SOLD_TO_BUYER, some "B")] ∧
    c9Order.quantity = 1 ∧
    c9UnitA.status = UnitStatus.IN_FACTORY ∧
    c9UnitB.status = UnitStatus.RETURNED_DEFECTIVE := by decide

/-- C10 fails as stated: with serial 100000 both in the reclaimed pool and
in use by live unit uA, allocating 1 drains and discards 100000 (the pool
persists as empty) and returns 100001 — but the discarded number is not
unavailable forever: deleting uA re-reclaims 100000 and the next allocation
returns it. -/
theorem c10_counterexample :
    generatedSerials 1 c10Store0 = ["100001"] ∧
    (runGenerateBatch 1 c10Store0).settings.recycledSerials = [] ∧
    (deleteProductUnit "uA" (runGenerateBatch 1 c10Store0)).settings.recycledSerials = [100000] ∧
    generatedSerials 1 (deleteProductUnit "uA" (runGenerateBatch 1 c10Store0)) = ["100000"] := by
  decide

/-- C10 amended: on every successful call the persisted pool is the suffix
of the ascending-sorted pool left after the drain, and every drained
(consumed) number was either returned in the batch or was skipped because
it is in use by a live unit — skipped numbers are discarded from the pool
rather than re-queued (though they may become available again later, as the
counterexample shows). -/
theorem c10_pool_drain_discards (s : Store) (q : Nat) (g : List String) (s2 : Store)
    (h : generateNextSerialBatch q s = .ok (g, s2)) :
    ∃ consumed,
      List.insertionSort (· ≤ ·) s.settings.recycledSerials =
        consumed ++ s2.settings.recycledSerials ∧
      ∀ x ∈ consumed, toString x ∈ g ∨ x ∈ usedNumbers s.units := by
  simp only [generateNextSerialBatch] at h
  split at h
  next x e2 hscan => simp at h
  next x g2 hscan =>
    have hpair := Except.ok.inj h
    injection hpair with hfst hsnd
    subst hsnd
    obtain ⟨consumed, hsplit, hmem⟩ := drainPool_consumed (usedNumbers s.units)
      (List.insertionSort (· ≤ ·) s.settings.recycledSerials) q
    refine ⟨consumed, hsplit, ?_⟩
    intro y hy
    rcases hmem y hy with hgm | hu
    · left; rw [← hfst]; exact List.mem_append_left _ hgm
    · right; exact hu

/-- Witness for C10 (amended): the drain/discard characterization applied
to the concrete allocation that skips the in-use number 100000. -/
theorem c10_pool_drain_discards_witness :
    ∃ consumed,
      List.insertionSort (· ≤ ·) c10Store0.settings.recycledSerials =
        consumed ++ (runGenerateBatch 1 c10Store0).settings.recycledSerials ∧
      ∀ x ∈ consumed, toString x ∈ ["100001"] ∨ x ∈ usedNumbers c10Store0.units :=
  c10_pool_drain_discards c10Store0 1 ["100001"] (runGenerateBatch 1 c10Store0) (by decide)

/-- C5 amended: the lifecycle triggers of `requestOrderReturn` and
`processBuyerReturn` are applied unconditionally to any existing order —
regardless of the current order status or the statuses of its assigned
units — and no state-conflict rejection exists anywhere: a return request
always sets the order to `Return Requested` and every assigned unit to
`RETURN_REQUESTED`; processing a return always sets the order to `Returned`
(accept) or `Delivered` (decline).  The only no-op is an order id that does
not exist, in which case the store is returned unchanged. -/
theorem c5_triggers_unconditional :
    (∀ (s : Store) (oid : String) (o : Order),
        s.orders.find? (fun x => x.id == oid) = some o →
        (requestOrderReturn oid s).orders.find? (fun x => x.id == oid) =
          some { o with status := OrderStatus.ReturnRequested }) ∧
    (∀ (s : Store) (oid : String) (o : Order) (ids : List String),
        s.orders.find? (fun x => x.id == oid) = some o →
        o.assignedUnitIds = some ids →
        (s.units.map (fun u => u.id)).Nodup → ids.Nodup →
        (requestOrderReturn oid s).units =
          s.units.map (fun u =>
            if u.id ∈ ids then { u with status := UnitStatus.RETURN_REQUESTED } else u)) ∧
    (∀ (s : Store) (oid : String),
        s.orders.find? (fun x => x.id == oid) = none → requestOrderReturn oid s = s) ∧
    (∀ (s : Store) (oid : String) (o : Order) (accept : Bool),
        s.orders.find? (fun x => x.id == oid) = some o →
        (processBuyerReturn oid accept s).orders.find? (fun x => x.id == oid) =
          some { o with status :=
            if accept then OrderStatus.Returned else OrderStatus.Delivered }) ∧
    (∀ (s : Store) (oid : String) (accept : Bool),
        s.orders.find? (fun x => x.id == oid) = none → processBuyerReturn oid accept s = s) := by
  refine ⟨?_, ?_, ?_, ?_, ?_⟩
  · intro s oid o hfind
    simp only [requestOrderReturn, hfind]
    rw [find?_updateFirst (fun x => x.id == oid)
      (fun x => { x with status := OrderStatus.ReturnRequested }) (fun x => rfl) s.orders, hfind]
    rfl
  · intro s oid o ids hfind hass hnodup hids
    simp only [requestOrderReturn, hfind, hass]
    exact foldl_updateFirst_eq_map (fun u => u.id)
      (fun u => { u with status := UnitStatus.RETURN_REQUESTED }) (fun x => rfl)
      ids s.units hnodup hids
  · intro s oid hfind
    simp only [requestOrderReturn, hfind]
  · intro s oid o accept hfind
    have horders : (processBuyerReturn oid accept s).orders =
        updateFirst (fun x => x.id == oid)
          (fun x => { x with status :=
            if accept then OrderStatus.Returned else OrderStatus.Delivered }) s.orders := by
      cases accept with
      | true =>
        simp only [processBuyerReturn, hfind, if_true]
        cases o.assignedUnitIds with
        | some ids => rfl
        | none =>
          by_cases hany : (s.bulkStock.any
              (fun st => st.productId == o.productId && st.ownerId == o.sellerId)) = true
          · simp [hany]
          · simp [hany]
      | false =>
        simp only [processBuyerReturn, hfind, Bool.false_eq_true, if_false]
        cases o.assignedUnitIds with
        | some ids => rfl
        | none => rfl
    rw [horders, find?_updateFirst (fun x => x.id == oid)
      (fun x => { x with status := if accept then OrderStatus.Returned else OrderStatus.Delivered })
      (fun x => rfl) s.orders, hfind]
    rfl
  · intro s oid accept hfind
    simp only [processBuyerReturn, hfind]

/-- Witness for C5 (amended): the unconditional transitions applied to the
concrete awaiting-confirmation order o5 and to an unknown order id. -/
theorem c5_triggers_unconditional_witness :
    (requestOrderReturn "o5" c5Store).orders.find? (fun x => x.id == "o5") =
      some { c5Order with status := OrderStatus.ReturnRequested } ∧
    (requestOrderReturn "o5" c5Store).units =
      c5Store.units.map (fun u =>
        if u.id ∈ ["u2"] then { u with status := UnitStatus.RETURN_REQUESTED } else u) ∧
    requestOrderReturn "zzz" c5Store = c5Store ∧
    (processBuyerReturn "o5" true c5Store).orders.find? (fun x => x.id == "o5") =
      some { c5Order with status := OrderStatus.Returned } ∧
    processBuyerReturn "zzz" true c5Store = c5Store :=
  ⟨c5_triggers_unconditional.1 c5Store "o5" c5Order (by decide),
   c5_triggers_unconditional.2.1 c5Store "o5" c5Order ["u2"] (by decide) (by decide)
     (by decide) (by decide),
   c5_triggers_unconditional.2.2.1 c5Store "zzz" (by decide),
   c5_triggers_unconditional.2.2.2.1 c5Store "o5" c5Order true (by decide),
   c5_triggers_unconditional.2.2.2.2 c5Store "zzz" true (by decide)⟩

/-- C7: reclaim round-trip.  Deleting a live unit whose serial number
parses as `n` inserts `n` into the reclaimed pool, deduplicated (the pool
is unchanged when `n` is already pooled, else `n` is appended); and
whenever `n` is the lowest number of the reclaimed pool and is not in use
by any live unit, the next `generateNextSerialBatch 1` returns exactly
`[n]`. -/
theorem c7_reclaim_roundtrip :
    (∀ (s : Store) (uid : String) (u : ProductUnit) (n : Nat),
        s.units.find? (fun x => x.id == uid) = some u →
        parseSerial u.serialNumber = some n →
        n ∈ (deleteProductUnit uid s).settings.recycledSerials ∧
        (deleteProductUnit uid s).settings.recycledSerials =
          (if n ∈ s.settings.recycledSerials then s.settings.recycledSerials
           else s.settings.recycledSerials ++ [n])) ∧
    (∀ (s : Store) (n : Nat),
        n ∈ s.settings.recycledSerials →
        (∀ x ∈ s.settings.recycledSerials, n ≤ x) →
        n ∉ usedNumbers s.units →
        ∃ s2, generateNextSerialBatch 1 s = .ok ([toString n], s2)) := by
  constructor
  · intro s uid u n hfind hparse
    simp only [deleteProductUnit, hfind, hparse]
    by_cases hmem : n ∈ s.settings.recycledSerials
    · simp [hmem]
    · simp [hmem]
  · intro s n hmem hmin hused
    obtain ⟨rest, hsort⟩ := insertionSort_head_of_min hmem hmin
    refine ⟨{ s with settings := { s.settings with recycledSerials := rest } }, ?_⟩
    have hdrain : drainPool (usedNumbers s.units) (n :: rest) 1 = ([toString n], rest) := by
      have h0 := drainPool_zero (usedNumbers s.units) rest
      simp [drainPool, hused, h0]
    simp only [generateNextSerialBatch, hsort, hdrain]
    simp [scanGo]

/-- Witness for C7: unit u7 with serial 100005 is deleted, 100005 enters
the pool, and the next single-serial allocation returns it. -/
theorem c7_reclaim_roundtrip_witness :
    ((100005 : Nat) ∈ (deleteProductUnit "u7" c7Store).settings.recycledSerials ∧
      (deleteProductUnit "u7" c7Store).settings.recycledSerials =
        (if (100005 : Nat) ∈ c7Store.settings.recycledSerials then
          c7Store.settings.recycledSerials
         else c7Store.settings.recycledSerials ++ [100005])) ∧
    ∃ s2, generateNextSerialBatch 1 (deleteProductUnit "u7" c7Store) =
      .ok ([toString (100005 : Nat)], s2) :=
  ⟨c7_reclaim_roundtrip.1 c7Store "u7" c7Unit 100005 (by decide) (by decide),
   c7_reclaim_roundtrip.2 (deleteProductUnit "u7" c7Store) 100005 (by decide) (by decide)
     (by decide)⟩

/-- C9 amended: `fulfillOrder` validates nothing.  For any existing order
with no pre-assigned units, whatever unit ids the seller supplies — more
than the order quantity, or ids of units in any lifecycle state — the order
is moved to `Confirmed` with a confirmation date and exactly the supplied
ids assigned, and every referenced existing unit is moved to
`SOLD_TO_BUYER` with the order buyer and sale date set, regardless of its
previous status. -/
theorem c9_fulfill_unvalidated (s : Store) (oid : String) (ids : List String) (today : String)
    (o : Order) (hfind : s.orders.find? (fun x => x.id == oid) = some o)
    (hempty : (o.assignedUnitIds.getD []).isEmpty = true)
    (hnodup : (s.units.map (fun u => u.id)).Nodup) (hids : ids.Nodup) :
    (fulfillOrder oid (some ids) today s).orders.find? (fun x => x.id == oid) =
      some { o with status := OrderStatus.Confirmed, dateConfirmed := some today, assignedUnitIds := some ids } ∧
    (fulfillOrder oid (some ids) today s).units =
      s.units.map (fun u =>
        if u.id ∈ ids then
          { u with status := UnitStatus.SOLD_TO_BUYER, buyerId := some o.buyerId, dateSold := some today }
        else u) := by
  constructor
  · simp only [fulfillOrder, hfind, hempty, if_true]
    rw [find?_updateFirst (fun x => x.id == oid)
      (fun x => { x with status := OrderStatus.Confirmed, dateConfirmed := some today, assignedUnitIds := some ids })
      (fun x => rfl) s.orders, hfind]
    rfl
  · simp only [fulfillOrder, hfind, hempty, if_true]
    exact foldl_updateFirst_eq_map (fun u => u.id)
      (fun u => { u with status := UnitStatus.SOLD_TO_BUYER, buyerId := some o.buyerId, dateSold := some today })
      (fun x => rfl) ids s.units hnodup hids

/-- Witness for C9 (amended): the quantity-1 order o9 is confirmed with two
supplied units in states IN_FACTORY and RETURNED_DEFECTIVE, all marked
sold. -/
theorem c9_fulfill_unvalidated_witness :
    (fulfillOrder "o9" (some ["a", "b"]) "2025-02-02" c9Store).orders.find?
        (fun x => x.id == "o9") =
      some { c9Order with status := OrderStatus.Confirmed, dateConfirmed := some "2025-02-02", assignedUnitIds := some ["a", "b"] } ∧
    (fulfillOrder "o9" (some ["a", "b"]) "2025-02-02" c9Store).units =
      c9Store.units.map (fun u =>
        if u.id ∈ ["a", "b"] then
          { u with status := UnitStatus.SOLD_TO_BUYER, buyerId := some c9Order.buyerId, dateSold := some "2025-02-02" }
        else u) :=
  c9_fulfill_unvalidated c9Store "o9" ["a", "b"] "2025-02-02" c9Order (by decide) (by decide)
    (by decide) (by decide)

theorem filter_pair_length_le_one {l : List BulkStock}
    (h : (l.map (fun st => (st.productId, st.ownerId))).Nodup) (pid owner : String) :
    (l.filter (fun st => st.productId == pid && st.ownerId == owner)).length ≤ 1 := by
  induction l with
  | nil => simp
  | cons x xs ih =>
    simp only [List.map_cons, List.nodup_cons] at h
    by_cases hx : (x.productId == pid && x.ownerId == owner) = true
    · have hxs : xs.filter (fun st => st.productId == pid && st.ownerId == owner) = [] := by
        rw [List.filter_eq_nil_iff]
        intro y hy hc
        simp only [Bool.and_eq_true, beq_iff_eq] at hc hx
        apply h.1
        have hpair : (x.productId, x.ownerId) = (y.productId, y.ownerId) := by
          rw [hx.1, hx.2, hc.1, hc.2]
        rw [hpair]
        exact List.mem_map_of_mem _ hy
      simp [List.filter_cons, hx, hxs]
    · simp only [List.filter_cons, hx, Bool.false_eq_true, if_false]
      exact ih h.2

theorem reset_sell_eq (b d : String) {u : ProductUnit}
    (h1 : u.status = UnitStatus.AT_SELLER) (h2 : u.buyerId = none) (h3 : u.dateSold = none) :
    ({ sellUnit b d u with status := UnitStatus.AT_SELLER, buyerId := none, dateSold := none } : ProductUnit) = u := by
  cases u
  simp_all [sellUnit]

theorem runCheckout_single_ser (s : Store) (item : CartItem)
    (oid buyerId buyerName today : String) (hser : item.isSerialized = true)
    (hval : validateItem s.products s.units s.bulkStock item = none)
    (hsid : (resolveSellerId s.products item == "") = false) :
    runCheckout buyerId buyerName [item] [oid] today s =
      { s with
        units := s.units.map (fun u => if (reservedIds s item).contains u.id then sellUnit buyerId today u else u)
        orders := s.orders ++ [mkCheckoutOrder s item oid buyerId buyerName today (some (reservedIds s item))]
        carts := s.carts.filter (fun kv => kv.fst != buyerId) } := by
  simp only [runCheckout, processCheckout, List.findSome?_cons, hval, List.findSome?_nil]
  simp only [checkoutExec, hsid, Bool.false_eq_true, if_false, hser, if_true]
  rfl

theorem runCheckout_single_bulk (s : Store) (item : CartItem)
    (oid buyerId buyerName today : String) (hser : item.isSerialized = false)
    (hval : validateItem s.products s.units s.bulkStock item = none)
    (hsid : (resolveSellerId s.products item == "") = false) :
    runCheckout buyerId buyerName [item] [oid] today s =
      { s with
        bulkStock := s.bulkStock.map (fun st => if st.productId == item.productId && st.ownerId == resolveSellerId s.products item then { st with quantity := st.quantity - (item.quantity : Int) } else st)
        orders := s.orders ++ [mkCheckoutOrder s item oid buyerId buyerName today none]
        carts := s.carts.filter (fun kv => kv.fst != buyerId) } := by
  simp only [runCheckout, processCheckout, List.findSome?_cons, hval, List.findSome?_nil]
  simp only [checkoutExec, hsid, Bool.false_eq_true, if_false, hser, if_true]
  rfl

/-- C4 fails as stated: cancellation is not an exact inverse of checkout.
Unit u1 sat with seller X in status `RETURNED_TO_SELLER`, still carrying the
previous buyer reference and sale date; checkout reserves it (the checkout
succeeds) and cancelOrder then returns it as `AT_SELLER` with buyer and sale
date cleared — not its pre-checkout values. -/
theorem c4_counterexample :
    processCheckout "B" "Buyer" [c4Item] ["o1"] "2025-01-01" c4Store =
      Except.ok (runCheckout "B" "Buyer" [c4Item] ["o1"] "2025-01-01" c4Store) ∧
    c4Cancelled.units ≠ c4Store.units ∧
    c4Cancelled.units.map (fun u : ProductUnit => (u.status, u.buyerId, u.dateSold)) =
      [(UnitStatus.AT_SELLER, none, none)] ∧
    c4Store.units.map (fun u : ProductUnit => (u.status, u.buyerId, u.dateSold)) =
      [(UnitStatus.RETURNED_TO_SELLER, some "oldB", some "2024-01-01")] ∧
    c4Cancelled.orders = [] := by decide

/-- C4 amended: for a single-line-item checkout, cancelOrder on the created
order restores the unit ledger, the bulk ledger and the order list exactly,
provided (serialized case) every eligible unit of that (product, seller)
was `AT_SELLER` with no buyer reference and no sale date before checkout —
in general reserved units are set to `AT_SELLER` with buyer and sale date
cleared rather than restored, as the counterexample shows.  The bulk case
is an exact inverse (the debited counter is credited back by the order
quantity).  Id-freshness and key-uniqueness of the stored records are
assumed. -/
theorem c4_cancel_inverse :
    (∀ (s : Store) (item : CartItem) (oid nsid buyerId buyerName today : String),
        item.isSerialized = true →
        1 ≤ item.quantity →
        validateItem s.products s.units s.bulkStock item = none →
        (∀ u ∈ s.units,
          eligibleUnit item.productId (resolveSellerId s.products item) u = true →
          u.status = UnitStatus.AT_SELLER ∧ u.buyerId = none ∧ u.dateSold = none) →
        (s.units.map (fun u => u.id)).Nodup →
        (∀ o ∈ s.orders, (o.id == oid) = false) →
        ((cancelOrder oid nsid (runCheckout buyerId buyerName [item] [oid] today s)).units = s.units ∧
         (cancelOrder oid nsid (runCheckout buyerId buyerName [item] [oid] today s)).bulkStock = s.bulkStock ∧
         (cancelOrder oid nsid (runCheckout buyerId buyerName [item] [oid] today s)).orders = s.orders)) ∧
    (∀ (s : Store) (item : CartItem) (oid nsid buyerId buyerName today : String),
        item.isSerialized = false →
        validateItem s.products s.units s.bulkStock item = none →
        (s.bulkStock.map (fun st => (st.productId, st.ownerId))).Nodup →
        (∀ o ∈ s.orders, (o.id == oid) = false) →
        ((cancelOrder oid nsid (runCheckout buyerId buyerName [item] [oid] today s)).units = s.units ∧
         (cancelOrder oid nsid (runCheckout buyerId buyerName [item] [oid] today s)).bulkStock = s.bulkStock ∧
         (cancelOrder oid nsid (runCheckout buyerId buyerName [item] [oid] today s)).orders = s.orders)) := by
  constructor
  · intro s item oid nsid buyerId buyerName today hser hq hval hclean hnodup hfresh
    have hval2 := hval
    simp only [validateItem, hser, if_true] at hval2
    by_cases hsid : (resolveSellerId s.products item == "") = true
    · rw [if_pos hsid] at hval2
      exact absurd hval2 (by simp)
    have hsid2 : (resolveSellerId s.products item == "") = false := by simpa using hsid
    rw [if_neg hsid] at hval2
    have hlen : item.quantity ≤
        (s.units.filter (eligibleUnit item.productId (resolveSellerId s.products item))).length := by
      by_contra hc
      rw [if_pos (Nat.not_le.mp hc)] at hval2
      exact absurd hval2 (by simp)
    rw [runCheckout_single_ser s item oid buyerId buyerName today hser hval hsid2]
    have hfindo : ((s.orders ++
          [mkCheckoutOrder s item oid buyerId buyerName today (some (reservedIds s item))]).find?
            (fun x => x.id == oid)) =
        some (mkCheckoutOrder s item oid buyerId buyerName today (some (reservedIds s item))) :=
      find?_append_singleton hfresh (by simp [mkCheckoutOrder])
    have hlids : (reservedIds s item).length = item.quantity := by
      simp only [reservedIds, List.length_map, List.length_take]
      exact Nat.min_eq_left hlen
    have hpos : ((mkCheckoutOrder s item oid buyerId buyerName today
        (some (reservedIds s item))).assignedUnitIds.getD []).length > 0 := by
      simp only [mkCheckoutOrder, Option.getD_some]
      omega
    have hmapidkey : ((s.units.map (fun u =>
        if (reservedIds s item).contains u.id then sellUnit buyerId today u else u)).map
          (fun u => u.id)).Nodup := by
      rw [List.map_map]
      have hcomp : ((fun u : ProductUnit => u.id) ∘ fun u =>
          if (reservedIds s item).contains u.id then sellUnit buyerId today u else u) =
          (fun u : ProductUnit => u.id) := by
        funext u
        simp only [Function.comp_apply]
        by_cases hcu : u.id ∈ reservedIds s item
        · rw [if_pos (List.elem_iff.mpr hcu)]
          rfl
        · rw [if_neg (fun hc => hcu (List.elem_iff.mp hc))]
      rw [hcomp]
      exact hnodup
    have hidsnodup : (reservedIds s item).Nodup := by
      have hsub : ((s.units.filter
          (eligibleUnit item.productId (resolveSellerId s.products item))).take
            item.quantity).Sublist s.units :=
        (List.take_sublist _ _).trans (List.filter_sublist _)
      exact List.Nodup.sublist (hsub.map (fun u : ProductUnit => u.id)) hnodup
    have hunitsmap : (s.units.map (fun u =>
        if (reservedIds s item).contains u.id then sellUnit buyerId today u else u)).map
          (fun u => if u.id ∈ reservedIds s item then
            { u with status := UnitStatus.AT_SELLER, buyerId := none, dateSold := none } else u) =
        s.units := by
      rw [List.map_map]
      apply map_id_of_eq
      intro u hu
      simp only [Function.comp_apply]
      by_cases hmem : u.id ∈ reservedIds s item
      · rw [if_pos (List.elem_iff.mpr hmem)]
        rw [if_pos (show (sellUnit buyerId today u).id ∈ reservedIds s item from hmem)]
        have hu2 : u ∈ (s.units.filter
            (eligibleUnit item.productId (resolveSellerId s.products item))).take item.quantity := by
          obtain ⟨v, hvtake, hvid⟩ := List.mem_map.mp hmem
          have hvunits : v ∈ s.units :=
            ((List.take_sublist _ _).trans (List.filter_sublist _)).subset hvtake
          have hvu : v = u := List.inj_on_of_nodup_map hnodup hvunits hu hvid
          rwa [hvu] at hvtake
        have helig : eligibleUnit item.productId (resolveSellerId s.products item) u = true :=
          (List.mem_filter.mp ((List.take_sublist _ _).subset hu2)).2
        obtain ⟨h1, h2, h3⟩ := hclean u hu helig
        exact reset_sell_eq buyerId today h1 h2 h3
      · rw [if_neg (fun hc => hmem (List.elem_iff.mp hc)), if_neg hmem]
    simp only [cancelOrder, hfindo]
    rw [if_pos hpos]
    simp only [mkCheckoutOrder, Option.getD_some]
    refine ⟨?_, trivial, ?_⟩
    · rw [foldl_updateFirst_eq_map (fun u => u.id)
        (fun u => { u with status := UnitStatus.AT_SELLER, buyerId := none, dateSold := none })
        (fun x => rfl) (reservedIds s item)
        (s.units.map (fun u => if (reservedIds s item).contains u.id then sellUnit buyerId today u else u))
        hmapidkey hidsnodup]
      exact hunitsmap
    · exact eraseFirst_append_singleton hfresh (by simp)
  · intro s item oid nsid buyerId buyerName today hser hval hkeys hfresh
    have hval2 := hval
    simp only [validateItem, hser, Bool.false_eq_true, if_false] at hval2
    by_cases hsid : (resolveSellerId s.products item == "") = true
    · rw [if_pos hsid] at hval2
      exact absurd hval2 (by simp)
    have hsid2 : (resolveSellerId s.products item == "") = false := by simpa using hsid
    rw [if_neg hsid] at hval2
    cases hfindst : s.bulkStock.find? (fun st =>
        st.productId == item.productId && st.ownerId == resolveSellerId s.products item) with
    | none =>
      rw [hfindst] at hval2
      exact absurd hval2 (by simp)
    | some st0 =>
      have hmem0 : st0 ∈ s.bulkStock := List.mem_of_find?_eq_some hfindst
      have hp0 : (st0.productId == item.productId &&
          st0.ownerId == resolveSellerId s.products item) = true := by
        have := List.find?_some hfindst
        simpa using this
      rw [runCheckout_single_bulk s item oid buyerId buyerName today hser hval hsid2]
      have hfindo : ((s.orders ++
            [mkCheckoutOrder s item oid buyerId buyerName today none]).find?
              (fun x => x.id == oid)) =
          some (mkCheckoutOrder s item oid buyerId buyerName today none) :=
        find?_append_singleton hfresh (by simp [mkCheckoutOrder])
      have hany : ((s.bulkStock.map (fun st =>
          if st.productId == item.productId && st.ownerId == resolveSellerId s.products item then
            { st with quantity := st.quantity - (item.quantity : Int) } else st)).any
            (fun st => st.productId == (mkCheckoutOrder s item oid buyerId buyerName today none).productId &&
              st.ownerId == (mkCheckoutOrder s item oid buyerId buyerName today none).sellerId)) = true := by
        apply List.any_eq_true.mpr
        refine ⟨(fun st => if st.productId == item.productId &&
            st.ownerId == resolveSellerId s.products item then
              { st with quantity := st.quantity - (item.quantity : Int) } else st) st0,
          List.mem_map_of_mem _ hmem0, ?_⟩
        dsimp only
        rw [if_pos hp0]
        simpa [mkCheckoutOrder] using hp0
      have hfilter : (((s.bulkStock.map (fun st =>
          if st.productId == item.productId && st.ownerId == resolveSellerId s.products item then
            { st with quantity := st.quantity - (item.quantity : Int) } else st))).filter
            (fun st => st.productId == item.productId &&
              st.ownerId == resolveSellerId s.products item)).length ≤ 1 := by
        apply filter_pair_length_le_one
        rw [List.map_map]
        have hcomp : ((fun st : BulkStock => (st.productId, st.ownerId)) ∘ fun st =>
            if st.productId == item.productId && st.ownerId == resolveSellerId s.products item then
              { st with quantity := st.quantity - (item.quantity : Int) } else st) =
            (fun st : BulkStock => (st.productId, st.ownerId)) := by
          funext st
          simp only [Function.comp_apply]
          by_cases hp : (st.productId == item.productId &&
              st.ownerId == resolveSellerId s.products item) = true
          · rw [if_pos hp]
          · rw [if_neg hp]
        rw [hcomp]
        exact hkeys
      simp only [cancelOrder, hfindo]
      rw [if_neg (by simp [mkCheckoutOrder]), if_pos hany]
      simp only [mkCheckoutOrder]
      rw [updateFirst_eq_map hfilter]
      refine ⟨trivial, ?_, ?_⟩
      · rw [List.map_map]
        apply map_id_of_eq
        intro st hst
        simp only [Function.comp_apply]
        by_cases hp : (st.productId == item.productId &&
            st.ownerId == resolveSellerId s.products item) = true
        · rw [if_pos hp]
          have hp2 : (({ id := st.id, productId := st.productId, ownerId := st.ownerId, quantity := st.quantity - (item.quantity : Int) } : BulkStock).productId == item.productId && ({ id := st.id, productId := st.productId, ownerId := st.ownerId, quantity := st.quantity - (item.quantity : Int) } : BulkStock).ownerId == resolveSellerId s.products item) = true := by
            simpa using hp
          rw [if_pos hp2]
          cases st
          simp [Int.sub_add_cancel]
        · rw [if_neg hp, if_neg hp]
      · exact eraseFirst_append_singleton hfresh (by simp)

/-- Witness for C4 (amended): the inverse at a concrete serialized store
(clean AT_SELLER unit u2) and a concrete bulk store (counter 5, quantity 2). -/
theorem c4_cancel_inverse_witness :
    ((cancelOrder "o1" "n1" (runCheckout "B" "Buyer" [c4Item] ["o1"] "2025-01-01" c4CleanStore)).units = c4CleanStore.units ∧
     (cancelOrder "o1" "n1" (runCheckout "B" "Buyer" [c4Item] ["o1"] "2025-01-01" c4CleanStore)).bulkStock = c4CleanStore.bulkStock ∧
     (cancelOrder "o1" "n1" (runCheckout "B" "Buyer" [c4Item] ["o1"] "2025-01-01" c4CleanStore)).orders = c4CleanStore.orders) ∧
    ((cancelOrder "o2" "n2" (runCheckout "B" "Buyer" [c4BulkItem] ["o2"] "2025-01-01" c4BulkStore)).units = c4BulkStore.units ∧
     (cancelOrder "o2" "n2" (runCheckout "B" "Buyer" [c4BulkItem] ["o2"] "2025-01-01" c4BulkStore)).bulkStock = c4BulkStore.bulkStock ∧
     (cancelOrder "o2" "n2" (runCheckout "B" "Buyer" [c4BulkItem] ["o2"] "2025-01-01" c4BulkStore)).orders = c4BulkStore.orders) :=
  ⟨c4_cancel_inverse.1 c4CleanStore c4Item "o1" "n1" "B" "Buyer" "2025-01-01" (by decide)
      (by decide) (by decide) (by decide) (by decide) (by decide),
   c4_cancel_inverse.2 c4BulkStore c4BulkItem "o2" "n2" "B" "Buyer" "2025-01-01" (by decide)
      (by decide) (by decide) (by decide)⟩

theorem hexDigitChar_val : ∀ k < 16, hexVal (hexDigitChar k) = k := by decide

theorem hexDigitChar_ne_colon : ∀ k < 16, hexDigitChar k ≠ ':' := by decide

theorem hexValFold_foldl : ∀ (l : List Char) (a : Nat),
    l.foldl (fun a c => a * 16 + hexVal c) a = a * 16 ^ l.length + hexValFold l := by
  intro l
  induction l with
  | nil => intro a; simp [hexValFold]
  | cons c l ih =>
    intro a
    simp only [List.foldl_cons, List.length_cons]
    rw [ih (a * 16 + hexVal c)]
    have hc : hexValFold (c :: l) = (0 * 16 + hexVal c) * 16 ^ l.length + hexValFold l := by
      rw [hexValFold, List.foldl_cons, ih (0 * 16 + hexVal c)]
    rw [hc]
    ring

theorem natToHexAux_zero : ∀ (fuel : Nat) (acc : List Char), natToHexAux fuel 0 acc = acc := by
  intro fuel acc
  cases fuel <;> simp [natToHexAux]

theorem natToHexAux_val : ∀ (fuel n : Nat) (acc : List Char), n < 16 ^ fuel →
    hexValFold (natToHexAux fuel n acc) = n * 16 ^ acc.length + hexValFold acc := by
  intro fuel
  induction fuel with
  | zero =>
    intro n acc hn
    simp only [pow_zero, Nat.lt_one_iff] at hn
    subst hn
    simp [natToHexAux]
  | succ fuel ih =>
    intro n acc hn
    by_cases hz : n = 0
    · subst hz
      simp [natToHexAux]
    · rw [natToHexAux]
      simp only [hz, if_false]
      have hdiv : n / 16 < 16 ^ fuel := by
        rw [Nat.div_lt_iff_lt_mul (by norm_num)]
        calc n < 16 ^ (fuel + 1) := hn
        _ = 16 ^ fuel * 16 := by ring
      rw [ih (n / 16) (hexDigitChar (n % 16) :: acc) hdiv]
      have hcons : hexValFold (hexDigitChar (n % 16) :: acc) =
          hexVal (hexDigitChar (n % 16)) * 16 ^ acc.length + hexValFold acc := by
        rw [hexValFold, List.foldl_cons, hexValFold_foldl]
        ring_nf
      rw [hcons, hexDigitChar_val (n % 16) (Nat.mod_lt n (by norm_num))]
      simp only [List.length_cons]
      have hd := Nat.div_add_mod n 16
      calc n / 16 * 16 ^ (acc.length + 1) + (n % 16 * 16 ^ acc.length + hexValFold acc)
          = (16 * (n / 16) + n % 16) * 16 ^ acc.length + hexValFold acc := by ring
        _ = n * 16 ^ acc.length + hexValFold acc := by rw [hd]

theorem natToHex_val (n : Nat) : hexValFold (natToHex n) = n := by
  by_cases hz : n = 0
  · subst hz
    decide
  · rw [natToHex]
    simp only [hz, if_false]
    have hlt : n < 16 ^ (n + 1) := by
      calc n < 2 ^ n := Nat.lt_two_pow n
      _ ≤ 16 ^ n := Nat.pow_le_pow_left (by norm_num) n
      _ ≤ 16 ^ (n + 1) := Nat.pow_le_pow_right (by norm_num) (Nat.le_succ n)
    rw [natToHexAux_val (n + 1) n [] hlt]
    simp [hexValFold]

theorem natToHex_inj {m n : Nat} (h : natToHex m = natToHex n) : m = n := by
  rw [← natToHex_val m, ← natToHex_val n, h]

theorem natToHexAux_mem : ∀ (fuel n : Nat) (acc : List Char) (c : Char),
    c ∈ natToHexAux fuel n acc → c ∈ acc ∨ ∃ k, k < 16 ∧ c = hexDigitChar k := by
  intro fuel
  induction fuel with
  | zero => intro n acc c hc; exact Or.inl (by simpa [natToHexAux] using hc)
  | succ fuel ih =>
    intro n acc c hc
    rw [natToHexAux] at hc
    by_cases hz : n = 0
    · simp only [hz, if_true] at hc
      exact Or.inl hc
    · simp only [hz, if_false] at hc
      rcases ih (n / 16) (hexDigitChar (n % 16) :: acc) c hc with hacc | hk
      · rcases List.mem_cons.mp hacc with heq | hmem
        · exact Or.inr ⟨n % 16, Nat.mod_lt n (by norm_num), heq⟩
        · exact Or.inl hmem
      · exact Or.inr hk

theorem natToHex_ne_colon (n : Nat) : ':' ∉ natToHex n := by
  intro hmem
  rw [natToHex] at hmem
  by_cases hz : n = 0
  · simp [hz] at hmem
  · simp only [hz, if_false] at hmem
    rcases natToHexAux_mem (n + 1) n [] ':' hmem with hacc | ⟨k, hk, heq⟩
    · simp at hacc
    · exact hexDigitChar_ne_colon k hk heq.symm

theorem hashStep_lt (h c : Nat) : hashStep h c < 2 ^ 32 :=
  Nat.mod_lt _ (by norm_num)

theorem hashFold_lt : ∀ (cs : List Nat) (h : Nat), h < 2 ^ 32 → hashFold h cs < 2 ^ 32 := by
  intro cs
  induction cs with
  | nil => intro h hh; simpa [hashFold] using hh
  | cons c cs ih => intro h hh; exact ih (hashStep h c) (hashStep_lt h c)

theorem coprimeK : Nat.gcd (2 ^ 32) 2654435761 = 1 := by decide

theorem hashStep_inj_left {h1 h2 c : Nat} (hh1 : h1 < 2 ^ 32) (hh2 : h2 < 2 ^ 32)
    (hc : c < 2 ^ 32) (h : hashStep h1 c = hashStep h2 c) : h1 = h2 := by
  have hmod : (h1 ^^^ c) * 2654435761 ≡ (h2 ^^^ c) * 2654435761 [MOD 2 ^ 32] := h
  have hcanc := Nat.ModEq.cancel_right_of_coprime coprimeK hmod
  have hx1 : h1 ^^^ c < 2 ^ 32 := Nat.xor_lt_two_pow hh1 hc
  have hx2 : h2 ^^^ c < 2 ^ 32 := Nat.xor_lt_two_pow hh2 hc
  have hxeq : h1 ^^^ c = h2 ^^^ c := by
    have := hcanc
    unfold Nat.ModEq at this
    rwa [Nat.mod_eq_of_lt hx1, Nat.mod_eq_of_lt hx2] at this
  have := congrArg (fun x => x ^^^ c) hxeq
  simpa [Nat.xor_cancel_right] using this

theorem hashStep_inj_right {h c1 c2 : Nat} (hh : h < 2 ^ 32) (hc1 : c1 < 2 ^ 32)
    (hc2 : c2 < 2 ^ 32) (heq : hashStep h c1 = hashStep h c2) : c1 = c2 := by
  have hmod : (h ^^^ c1) * 2654435761 ≡ (h ^^^ c2) * 2654435761 [MOD 2 ^ 32] := heq
  have hcanc := Nat.ModEq.cancel_right_of_coprime coprimeK hmod
  have hx1 : h ^^^ c1 < 2 ^ 32 := Nat.xor_lt_two_pow hh hc1
  have hx2 : h ^^^ c2 < 2 ^ 32 := Nat.xor_lt_two_pow hh hc2
  have hxeq : h ^^^ c1 = h ^^^ c2 := by
    have := hcanc
    unfold Nat.ModEq at this
    rwa [Nat.mod_eq_of_lt hx1, Nat.mod_eq_of_lt hx2] at this
  have := congrArg (fun x => h ^^^ x) hxeq
  simpa [Nat.xor_cancel_left] using this

theorem hashFold_inj : ∀ (cs : List Nat) (h1 h2 : Nat), (∀ x ∈ cs, x < 2 ^ 32) →
    h1 < 2 ^ 32 → h2 < 2 ^ 32 → h1 ≠ h2 → hashFold h1 cs ≠ hashFold h2 cs := by
  intro cs
  induction cs with
  | nil => intro h1 h2 _ _ _ hne; simpa [hashFold] using hne
  | cons c cs ih =>
    intro h1 h2 hcs hh1 hh2 hne
    have hc : c < 2 ^ 32 := hcs c (List.mem_cons_self c cs)
    have hstep : hashStep h1 c ≠ hashStep h2 c :=
      fun heq => hne (hashStep_inj_left hh1 hh2 hc heq)
    exact ih (hashStep h1 c) (hashStep h2 c) (fun x hx => hcs x (List.mem_cons_of_mem _ hx))
      (hashStep_lt h1 c) (hashStep_lt h2 c) hstep

theorem hashFold_append : ∀ (l1 l2 : List Nat) (h : Nat),
    hashFold h (l1 ++ l2) = hashFold (hashFold h l1) l2 := by
  intro l1
  induction l1 with
  | nil => intro l2 h; rfl
  | cons c l1 ih => intro l2 h; simp only [List.cons_append, hashFold]; exact ih l2 (hashStep h c)

theorem xor_small_shiftRight {a d : Nat} (hd : d < 2 ^ 16) : (a ^^^ d) >>> 16 = a >>> 16 := by
  apply Nat.eq_of_testBit_eq
  intro i
  rw [Nat.testBit_shiftRight, Nat.testBit_shiftRight, Nat.testBit_xor]
  have hdb : d.testBit (16 + i) = false :=
    Nat.testBit_lt_two_pow (lt_of_lt_of_le hd (Nat.pow_le_pow_right (by norm_num) (by omega)))
  rw [hdb]
  simp

theorem finalizeHash_inj {a b : Nat} (ha : a < 2 ^ 32) (hb : b < 2 ^ 32)
    (h : finalizeHash a = finalizeHash b) : a = b := by
  have hda : a >>> 16 < 2 ^ 16 := by
    rw [Nat.shiftRight_eq_div_pow]
    rw [Nat.div_lt_iff_lt_mul (by norm_num)]
    calc a < 2 ^ 32 := ha
    _ = 2 ^ 16 * 2 ^ 16 := by norm_num
  have hdb : b >>> 16 < 2 ^ 16 := by
    rw [Nat.shiftRight_eq_div_pow]
    rw [Nat.div_lt_iff_lt_mul (by norm_num)]
    calc b < 2 ^ 32 := hb
    _ = 2 ^ 16 * 2 ^ 16 := by norm_num
  have hsh : a >>> 16 = b >>> 16 := by
    have h1 : (a ^^^ (a >>> 16)) >>> 16 = a >>> 16 := xor_small_shiftRight hda
    have h2 : (b ^^^ (b >>> 16)) >>> 16 = b >>> 16 := xor_small_shiftRight hdb
    rw [← h1, ← h2]
    unfold finalizeHash at h
    rw [h]
  have hxor : a ^^^ (a >>> 16) = b ^^^ (b >>> 16) := h
  rw [hsh] at hxor
  have := congrArg (fun x => x ^^^ (b >>> 16)) hxor
  simpa [Nat.xor_cancel_right] using this

theorem charCode_lt (c : Char) : c.toNat < 2 ^ 32 := c.val.toNat_lt

theorem charCode_inj {c1 c2 : Char} (h : c1.toNat = c2.toNat) : c1 = c2 := by
  apply Char.ext
  exact UInt32.toNat.inj h

theorem generateSyncSignature_ne_of_single_diff (pre post : List Char) {c1 c2 : Char}
    (hne : c1 ≠ c2) :
    generateSyncSignature (pre ++ c1 :: post) ≠ generateSyncSignature (pre ++ c2 :: post) := by
  intro heq
  apply hne
  have hhash := natToHex_inj heq
  have hfin := finalizeHash_inj
    (hashFold_lt _ _ (by norm_num))
    (hashFold_lt _ _ (by norm_num)) hhash
  rw [List.map_append, List.map_append, hashFold_append, hashFold_append] at hfin
  simp only [List.map_cons, hashFold] at hfin
  have hbase : hashFold 0xdeadbeef (pre.map Char.toNat) < 2 ^ 32 :=
    hashFold_lt _ _ (by norm_num)
  have hstepne : hashStep (hashFold 0xdeadbeef (pre.map Char.toNat)) c1.toNat =
      hashStep (hashFold 0xdeadbeef (pre.map Char.toNat)) c2.toNat := by
    by_contra hc
    exact hashFold_inj (post.map Char.toNat) _ _
      (fun x hx => by
        obtain ⟨ch, _, hch⟩ := List.mem_map.mp hx
        rw [← hch]; exact charCode_lt ch)
      (hashStep_lt _ _) (hashStep_lt _ _) hc hfin
  exact charCode_inj (hashStep_inj_right hbase (charCode_lt c1) (charCode_lt c2) hstepne)

theorem splitColon_no_colon : ∀ {l : List Char}, ':' ∉ l → splitColon l = [l] := by
  intro l
  induction l with
  | nil => intro _; rfl
  | cons c rest ih =>
    intro h
    have hc : ¬ (c = ':') := fun hc => h (by rw [hc]; exact List.mem_cons_self _ _)
    have hrest : ':' ∉ rest := fun hm => h (List.mem_cons_of_mem _ hm)
    rw [splitColon]
    simp only [hc, if_false]
    rw [ih hrest]

theorem splitColon_append : ∀ {l1 : List Char} (l2 : List Char), ':' ∉ l1 →
    splitColon (l1 ++ ':' :: l2) = l1 :: splitColon l2 := by
  intro l1
  induction l1 with
  | nil =>
    intro l2 _
    rw [List.nil_append, splitColon]
    simp
  | cons c rest ih =>
    intro l2 h
    have hc : ¬ (c = ':') := fun hc => h (by rw [hc]; exact List.mem_cons_self _ _)
    have hrest : ':' ∉ rest := fun hm => h (List.mem_cons_of_mem _ hm)
    rw [List.cons_append, splitColon]
    simp only [hc, if_false]
    rw [ih l2 hrest]

theorem splitColon_cons_ne (c : Char) (hc : ¬ (c = ':')) (l : List Char) (h0 : List Char)
    (t : List (List Char)) (h : splitColon l = h0 :: t) :
    splitColon (c :: l) = (c :: h0) :: t := by
  rw [splitColon]
  simp only [hc, if_false]
  rw [h]

theorem splitColon_signed {S sig : List Char} (hS : ':' ∉ S) (hsig : ':' ∉ sig) :
    splitColon ('L' :: 'S' :: ':' :: (S ++ ':' :: sig)) = [['L', 'S'], S, sig] := by
  have hbody : splitColon (S ++ ':' :: sig) = S :: splitColon sig := splitColon_append sig hS
  rw [splitColon_no_colon hsig] at hbody
  have h3 : splitColon (':' :: (S ++ ':' :: sig)) = [] :: [S, sig] := by
    rw [splitColon, hbody]
    simp
  have h2 := splitColon_cons_ne 'S' (by decide) (':' :: (S ++ ':' :: sig)) [] [S, sig] h3
  exact splitColon_cons_ne 'L' (by decide) _ _ _ h2

theorem sig_ne_colon (S : List Char) : ':' ∉ generateSyncSignature (S ++ SYSTEM_SECRET_KEY) :=
  natToHex_ne_colon _

theorem validate_roundtrip {S : List Char} (hS : ':' ∉ S) :
    validateSignedQR (getSignedQRData S) =
      { valid := true, serialNumber := some S, error := none } := by
  rw [validateSignedQR, getSignedQRData]
  rw [if_neg (by rw [startsWithLS]; simp)]
  rw [splitColon_signed hS (sig_ne_colon S)]
  simp

theorem set_cons3 (a b c : Char) (l : List Char) (j : Nat) (x : Char) :
    (a :: b :: c :: l).set (j + 3) x = a :: b :: c :: l.set j x := by
  have h1 : j + 3 = (j + 2) + 1 := rfl
  have h2 : j + 2 = (j + 1) + 1 := rfl
  rw [h1, List.set_cons_succ, h2, List.set_cons_succ, List.set_cons_succ]

theorem getD_cons3 (a b c : Char) (l : List Char) (j : Nat) (d : Char) :
    (a :: b :: c :: l).getD (j + 3) d = l.getD j d := by
  have h1 : j + 3 = (j + 2) + 1 := rfl
  have h2 : j + 2 = (j + 1) + 1 := rfl
  rw [h1, List.getD_cons_succ, h2, List.getD_cons_succ, List.getD_cons_succ]

theorem set_ne_of_ne {l : List Char} {k : Nat} {c : Char} (h : k < l.length)
    (hc : c ≠ l.getD k ' ') : l.set k c ≠ l := by
  intro he
  apply hc
  have h2 : k < (l.set k c).length := by rw [List.length_set]; exact h
  have h1 : (l.set k c).getD k ' ' = c := by
    rw [List.getD_eq_getElem _ _ h2]
    exact List.getElem_set_self h2
  rw [← h1, he]

theorem drop_decomp {l : List Char} {j : Nat} (hj : j < l.length) :
    l = l.take j ++ l.getD j ' ' :: l.drop (j + 1) := by
  have h1 : l.getD j ' ' :: l.drop (j + 1) = l.drop j := by
    rw [List.getD_eq_getElem _ _ hj]
    exact List.getElem_cons_drop l j hj
  rw [h1, List.take_append_drop]

theorem validate_set_low (S : List Char) (i : Nat) (hi : i < 3) (c : Char)
    (hc : c ≠ (getSignedQRData S).getD i ' ') :
    validateSignedQR ((getSignedQRData S).set i c) =
      { valid := false, error := some errExternalQR } := by
  rw [getSignedQRData] at hc ⊢
  interval_cases i
  · simp only [List.getD_cons_zero] at hc
    rw [List.set_cons_zero, validateSignedQR]
    rw [if_pos (by simp [startsWithLS, hc])]
  · simp only [List.getD_cons_succ, List.getD_cons_zero] at hc
    rw [show (1 : Nat) = 0 + 1 from rfl, List.set_cons_succ, List.set_cons_zero, validateSignedQR]
    rw [if_pos (by simp [startsWithLS, hc])]
  · simp only [List.getD_cons_succ, List.getD_cons_zero] at hc
    rw [show (2 : Nat) = 1 + 1 from rfl, List.set_cons_succ,
      show (1 : Nat) = 0 + 1 from rfl, List.set_cons_succ, List.set_cons_zero, validateSignedQR]
    rw [if_pos (by simp [startsWithLS, hc])]

theorem validate_parts_of_body (S body : List Char)
    (h : splitColon body = [S, generateSyncSignature (S ++ SYSTEM_SECRET_KEY)]) :
    validateSignedQR ('L' :: 'S' :: ':' :: body) =
      { valid := true, serialNumber := some S, error := none } := by
  rw [validateSignedQR]
  rw [if_neg (by rw [startsWithLS]; simp)]
  have hsplit : splitColon ('L' :: 'S' :: ':' :: body) =
      [['L', 'S'], S, generateSyncSignature (S ++ SYSTEM_SECRET_KEY)] := by
    have h3 : splitColon (':' :: body) = [] :: [S, generateSyncSignature (S ++ SYSTEM_SECRET_KEY)] := by
      rw [splitColon, h]
      simp
    have h2 := splitColon_cons_ne 'S' (by decide) (':' :: body) [] _ h3
    exact splitColon_cons_ne 'L' (by decide) _ _ _ h2
  rw [hsplit]
  simp

theorem validate_malformed_of_parts (body : List Char) (parts : List (List Char))
    (h : splitColon body = parts) (hlen : parts.length ≠ 2) :
    validateSignedQR ('L' :: 'S' :: ':' :: body) =
      { valid := false, error := some errMalformedQR } := by
  rw [validateSignedQR]
  rw [if_neg (by rw [startsWithLS]; simp)]
  have hsplit : splitColon ('L' :: 'S' :: ':' :: body) = ['L', 'S'] :: parts := by
    have h3 : splitColon (':' :: body) = [] :: parts := by
      rw [splitColon, h]
      simp
    have h2 := splitColon_cons_ne 'S' (by decide) _ _ _ h3
    exact splitColon_cons_ne 'L' (by decide) _ _ _ h2
  rw [hsplit]
  rcases parts with _ | ⟨a, rest1⟩
  · rfl
  rcases rest1 with _ | ⟨b, rest2⟩
  · rfl
  rcases rest2 with _ | ⟨d, rest3⟩
  · exact absurd rfl hlen
  · rfl

theorem validate_forged_of_parts (S2 sig2 body : List Char)
    (h : splitColon body = [S2, sig2])
    (hne : sig2 ≠ generateSyncSignature (S2 ++ SYSTEM_SECRET_KEY)) :
    validateSignedQR ('L' :: 'S' :: ':' :: body) =
      { valid := false, error := some errForgedQR } := by
  rw [validateSignedQR]
  rw [if_neg (by rw [startsWithLS]; simp)]
  have hsplit : splitColon ('L' :: 'S' :: ':' :: body) = ['L', 'S'] :: [S2, sig2] := by
    have h3 : splitColon (':' :: body) = [] :: [S2, sig2] := by
      rw [splitColon, h]
      simp
    have h2 := splitColon_cons_ne 'S' (by decide) _ _ _ h3
    exact splitColon_cons_ne 'L' (by decide) _ _ _ h2
  rw [hsplit]
  simp [hne]

theorem validate_set_serial_ne (S : List Char) (hS : ':' ∉ S) (j : Nat) (hj : j < S.length)
    (c : Char) (hcol : c ≠ ':') (hc : c ≠ S.getD j ' ') :
    validateSignedQR ((getSignedQRData S).set (j + 3) c) =
      { valid := false, error := some errForgedQR } := by
  rw [getSignedQRData, set_cons3, List.set_append]
  rw [if_pos hj]
  have hS2 : ':' ∉ S.set j c := by
    intro hm
    rcases List.mem_or_eq_of_mem_set hm with hmem | heq
    · exact hS hmem
    · exact hcol heq.symm
  apply validate_forged_of_parts (S.set j c) _ _
    (by rw [splitColon_append _ hS2, splitColon_no_colon (sig_ne_colon S)])
  intro heq
  have hdecS : S = S.take j ++ S.getD j ' ' :: S.drop (j + 1) := drop_decomp hj
  have hdecS2 : S.set j c = S.take j ++ c :: S.drop (j + 1) := by
    rw [List.set_eq_take_append_cons_drop]
    rw [if_pos hj]
  have hassoc1 : S ++ SYSTEM_SECRET_KEY =
      S.take j ++ S.getD j ' ' :: (S.drop (j + 1) ++ SYSTEM_SECRET_KEY) := by
    conv_lhs => rw [hdecS]
    rw [List.append_assoc, List.cons_append]
  have hassoc2 : S.set j c ++ SYSTEM_SECRET_KEY =
      S.take j ++ c :: (S.drop (j + 1) ++ SYSTEM_SECRET_KEY) := by
    rw [hdecS2, List.append_assoc, List.cons_append]
  have hdiff := generateSyncSignature_ne_of_single_diff (S.take j)
    (S.drop (j + 1) ++ SYSTEM_SECRET_KEY)
    (show S.getD j ' ' ≠ c from fun h => hc h.symm)
  apply hdiff
  rw [← hassoc1, ← hassoc2]
  exact heq

theorem validate_set_serial_colon (S : List Char) (hS : ':' ∉ S) (j : Nat) (hj : j < S.length) :
    validateSignedQR ((getSignedQRData S).set (j + 3) ':') =
      { valid := false, error := some errMalformedQR } := by
  rw [getSignedQRData, set_cons3, List.set_append]
  rw [if_pos hj]
  have hdec : S.set j ':' = S.take j ++ ':' :: S.drop (j + 1) := by
    rw [List.set_eq_take_append_cons_drop]
    rw [if_pos hj]
  rw [hdec, List.append_assoc, List.cons_append]
  have htake : ':' ∉ S.take j := fun hm => hS ((List.take_sublist _ _).subset hm)
  have hdrop : ':' ∉ S.drop (j + 1) := fun hm => hS ((List.drop_sublist _ _).subset hm)
  apply validate_malformed_of_parts _ _
    (by rw [splitColon_append _ htake, splitColon_append _ hdrop,
      splitColon_no_colon (sig_ne_colon S)])
  simp

theorem validate_set_sep (S : List Char) (hS : ':' ∉ S) (c : Char) (hcol : c ≠ ':') :
    validateSignedQR ((getSignedQRData S).set (S.length + 3) c) =
      { valid := false, error := some errMalformedQR } := by
  rw [getSignedQRData, set_cons3, List.set_append]
  rw [if_neg (lt_irrefl _), Nat.sub_self, List.set_cons_zero]
  have hbody : ':' ∉ S ++ c :: generateSyncSignature (S ++ SYSTEM_SECRET_KEY) := by
    intro hm
    rcases List.mem_append.mp hm with hmem | hmem
    · exact hS hmem
    · rcases List.mem_cons.mp hmem with heq | hmem2
      · exact hcol heq.symm
      · exact sig_ne_colon S hmem2
  apply validate_malformed_of_parts _ _ (splitColon_no_colon hbody)
  simp

theorem validate_set_sig_ne (S : List Char) (hS : ':' ∉ S) (k : Nat)
    (hk : k < (generateSyncSignature (S ++ SYSTEM_SECRET_KEY)).length)
    (c : Char) (hcol : c ≠ ':')
    (hc : c ≠ (generateSyncSignature (S ++ SYSTEM_SECRET_KEY)).getD k ' ') :
    validateSignedQR ((getSignedQRData S).set (S.length + 1 + k + 3) c) =
      { valid := false, error := some errForgedQR } := by
  rw [getSignedQRData, set_cons3, List.set_append]
  rw [if_neg (by omega)]
  have hidx : S.length + 1 + k - S.length = k + 1 := by omega
  rw [hidx, List.set_cons_succ]
  have hsig2 : ':' ∉ (generateSyncSignature (S ++ SYSTEM_SECRET_KEY)).set k c := by
    intro hm
    rcases List.mem_or_eq_of_mem_set hm with hmem | heq
    · exact sig_ne_colon S hmem
    · exact hcol heq.symm
  apply validate_forged_of_parts S _ _
    (by rw [splitColon_append _ hS, splitColon_no_colon hsig2])
  exact set_ne_of_ne hk hc

theorem validate_set_sig_colon (S : List Char) (hS : ':' ∉ S) (k : Nat)
    (hk : k < (generateSyncSignature (S ++ SYSTEM_SECRET_KEY)).length) :
    validateSignedQR ((getSignedQRData S).set (S.length + 1 + k + 3) ':') =
      { valid := false, error := some errMalformedQR } := by
  rw [getSignedQRData, set_cons3, List.set_append]
  rw [if_neg (by omega)]
  have hidx : S.length + 1 + k - S.length = k + 1 := by omega
  rw [hidx, List.set_cons_succ]
  have hdec : (generateSyncSignature (S ++ SYSTEM_SECRET_KEY)).set k ':' =
      (generateSyncSignature (S ++ SYSTEM_SECRET_KEY)).take k ++ ':' ::
        (generateSyncSignature (S ++ SYSTEM_SECRET_KEY)).drop (k + 1) := by
    rw [List.set_eq_take_append_cons_drop]
    rw [if_pos hk]
  rw [hdec]
  have htake : ':' ∉ (generateSyncSignature (S ++ SYSTEM_SECRET_KEY)).take k :=
    fun hm => sig_ne_colon S ((List.take_sublist _ _).subset hm)
  have hdrop : ':' ∉ (generateSyncSignature (S ++ SYSTEM_SECRET_KEY)).drop (k + 1) :=
    fun hm => sig_ne_colon S ((List.drop_sublist _ _).subset hm)
  apply validate_malformed_of_parts _ _
    (by rw [splitColon_append _ hS, splitColon_append _ htake, splitColon_no_colon hdrop])
  simp

theorem getSignedQRData_length (S : List Char) :
    (getSignedQRData S).length =
      S.length + (generateSyncSignature (S ++ SYSTEM_SECRET_KEY)).length + 4 := by
  simp [getSignedQRData]
  omega

/-- C8 (main part): the QR round-trip holds — for every colon-free serial `S`,
`validateSignedQR (getSignedQRData S)` is valid and recovers `S` — and every
single-character alteration of the signed payload is rejected; but the
rejection reason is the digest mismatch (`forged`) only away from the
protocol marker and the separator: altering the first three characters
yields the external-QR reason and turning a payload character into a colon
(or the separator into anything else) yields the malformed reason, so the
claim's "digest-mismatch reason" part is wrong for those positions. -/
theorem c8_qr_roundtrip_tamper :
    ∀ S : List Char, ':' ∉ S →
      validateSignedQR (getSignedQRData S) =
        { valid := true, serialNumber := some S, error := none } ∧
      ∀ (i : Nat) (c : Char), i < (getSignedQRData S).length →
        c ≠ (getSignedQRData S).getD i ' ' →
        (validateSignedQR ((getSignedQRData S).set i c)).valid = false ∧
        (3 ≤ i → i ≠ S.length + 3 → c ≠ ':' →
          (validateSignedQR ((getSignedQRData S).set i c)).error =
            some errForgedQR) := by
  intro S hS
  refine ⟨validate_roundtrip hS, ?_⟩
  intro i c hi hc
  by_cases hlow : i < 3
  · rw [validate_set_low S i hlow c hc]
    exact ⟨rfl, fun h3 _ _ => absurd h3 (by omega)⟩
  · obtain ⟨j, rfl⟩ : ∃ j, i = j + 3 := ⟨i - 3, by omega⟩
    have hgetD : (getSignedQRData S).getD (j + 3) ' ' =
        (S ++ ':' :: generateSyncSignature (S ++ SYSTEM_SECRET_KEY)).getD j ' ' := by
      rw [getSignedQRData, getD_cons3]
    rw [hgetD] at hc
    have hlen := getSignedQRData_length S
    have hjlen : j < S.length + 1 +
        (generateSyncSignature (S ++ SYSTEM_SECRET_KEY)).length := by omega
    by_cases hjS : j < S.length
    · by_cases hcol : c = ':'
      · subst hcol
        rw [validate_set_serial_colon S hS j hjS]
        exact ⟨rfl, fun _ _ habs => absurd rfl habs⟩
      · rw [List.getD_append _ _ _ _ hjS] at hc
        rw [validate_set_serial_ne S hS j hjS c hcol hc]
        exact ⟨rfl, fun _ _ _ => rfl⟩
    · by_cases hjsep : j = S.length
      · subst hjsep
        rw [List.getD_append_right _ _ _ _ (le_refl _), Nat.sub_self,
          List.getD_cons_zero] at hc
        rw [validate_set_sep S hS c hc]
        exact ⟨rfl, fun _ hne _ => absurd rfl hne⟩
      · obtain ⟨k, rfl⟩ : ∃ k, j = S.length + 1 + k :=
          ⟨j - S.length - 1, by omega⟩
        have hk : k < (generateSyncSignature (S ++ SYSTEM_SECRET_KEY)).length := by
          omega
        by_cases hcol : c = ':'
        · subst hcol
          rw [validate_set_sig_colon S hS k hk]
          exact ⟨rfl, fun _ _ habs => absurd rfl habs⟩
        · rw [List.getD_append_right _ _ _ _ (by omega)] at hc
          have hidx : S.length + 1 + k - S.length = k + 1 := by omega
          rw [hidx, List.getD_cons_succ] at hc
          rw [validate_set_sig_ne S hS k hk c hcol hc]
          exact ⟨rfl, fun _ _ _ => rfl⟩

theorem c8_qr_roundtrip_tamper_witness :
    (':' ∉ c8Serial) ∧
    validateSignedQR (getSignedQRData c8Serial) =
      { valid := true, serialNumber := some c8Serial, error := none } ∧
    ((4 < (getSignedQRData c8Serial).length) ∧ ('Z' ≠ (getSignedQRData c8Serial).getD 4 ' ') ∧
      (validateSignedQR ((getSignedQRData c8Serial).set 4 'Z')).valid = false ∧
      (validateSignedQR ((getSignedQRData c8Serial).set 4 'Z')).error = some errForgedQR) := by
  have h := c8_qr_roundtrip_tamper c8Serial (by decide)
  have h2 := h.2 4 'Z' (by decide) (by decide)
  exact ⟨by decide, h.1, by decide, by decide, h2.1,
    h2.2 (by decide) (by decide) (by decide)⟩

/-- C8 fails as stated: altering one character of a signed payload does not
always produce a digest-mismatch reason.  Altering the first character of
the protocol marker of `sign("100000")` is rejected with the external-QR
(wrong protocol marker) reason, which differs from the forged-signature
reason. -/
theorem c8_counterexample :
    validateSignedQR ((getSignedQRData c8Serial).set 0 'X') =
      { valid := false, serialNumber := none, error := some errExternalQR } ∧
    errExternalQR ≠ errForgedQR := by decide

end LallanShop
